import Mathlib

/-!
Verification development for the Boston Speed Read summary generator
(`generate_summaries.mjs`, final iteration, together with the earlier
iteration's `buildTeaser`).  The JavaScript string pipeline is embedded
shallowly: strings are lists of characters, `String.prototype.toLowerCase`
is modelled on the ASCII range by `Char.toLower` (the source strings only
use ASCII letters plus typographic punctuation, which `toLowerCase` leaves
unchanged), and each regular expression is embedded as an executable
scanner implementing the pattern as written.
-/

set_option maxHeartbeats 1000000

abbrev Str := List Char

/-- JavaScript `\s` / `trim` whitespace, restricted to the characters that
can reach the pipeline: space, tab, newline, carriage return, vertical tab,
form feed and no-break space. -/
def isWsB (c : Char) : Bool :=
  c = ' ' || c = '\t' || c = '\n' || c = '\r' || c = '\x0b' || c = '\x0c' || c = ' '

/-- JavaScript `\w`: ASCII alphanumerics and underscore. -/
def isWordB (c : Char) : Bool :=
  c.isAlphanum || c = '_'

/-- One character of `[\p{L}’'-]` (ASCII letters plus the punctuation the
source titles use). -/
def isNameB (c : Char) : Bool :=
  c.isAlpha || c = '’' || c = '\'' || c = '-'

/-- `String.prototype.toLowerCase` on one character (ASCII range). -/
def lowCh : Char → Char := Char.toLower

/-- `String.prototype.toLowerCase`. -/
def lowS (s : Str) : Str := s.map lowCh

/-- Leading-whitespace removal, first half of `String.prototype.trim`. -/
def trimLeftS (s : Str) : Str := s.dropWhile isWsB

/-- Trailing-whitespace removal, second half of `String.prototype.trim`. -/
def trimRightS : Str → Str
  | [] => []
  | c :: cs =>
    match trimRightS cs with
    | [] => if isWsB c then [] else [c]
    | r => c :: r

/-- `String.prototype.trim`. -/
def trimS (s : Str) : Str := trimRightS (trimLeftS s)

/-- The maximal whitespace-free words of a string, in order (the non-empty
tokens of `split(/\s+/)`). -/
def wordsS : Str → List Str
  | [] => []
  | c :: cs =>
    if isWsB c then wordsS cs
    else
      match cs with
      | [] => [[c]]
      | d :: _ =>
        if isWsB d then [c] :: wordsS cs
        else
          match wordsS cs with
          | [] => [[c]]
          | w :: ws => (c :: w) :: ws

/-- `Array.prototype.join(" ")`. -/
def joinSp : List Str → Str
  | [] => []
  | [w] => w
  | w :: ws => w ++ ' ' :: joinSp ws

/-- `s.split(/\s+/)[0]`: the empty string when `s` is empty or starts with
whitespace, otherwise the first word. -/
def jsFirstTok (s : Str) : Str :=
  match s with
  | [] => []
  | c :: _ => if isWsB c then [] else (wordsS s).headD []

/-- `firstTwoWords` (`generate_summaries.mjs` line 501):
`s.trim().split(/\s+/).slice(0,2).join(" ").toLowerCase()`. -/
def firstTwoWords (s : Str) : Str :=
  lowS (joinSp ((wordsS (trimS s)).take 2))

/-- `s.split(/\s+/)[0].toLowerCase()` as used on already-produced bullet
text (lines 602 and 685 of the source). -/
def firstWordJS (s : Str) : Str := lowS (jsFirstTok s)

/-- Does `pat` occur at the start of `s`? -/
def startsS : Str → Str → Bool
  | [], _ => true
  | _ :: _, [] => false
  | p :: ps, c :: cs => p = c && startsS ps cs

/-- `String.prototype.includes`: does `pat` occur contiguously in `hay`? -/
def subS (pat : Str) (hay : Str) : Bool :=
  startsS pat hay ||
    match hay with
    | [] => false
    | _ :: t => subS pat t

/-- `line.replace(/\?+/g, "")`: remove every question mark. -/
def stripQm (s : Str) : Str := s.filter (fun c => !(c = '?'))

/-- `b.replace(/\s+/g, " ")`: collapse every whitespace run to one space. -/
def collapseWs : Str → Str
  | [] => []
  | c :: cs =>
    if isWsB c then
      match cs with
      | [] => [' ']
      | d :: _ => if isWsB d then collapseWs cs else ' ' :: collapseWs cs
    else c :: collapseWs cs

/-- `b.replace(/\.\.\.$/, "")`: drop one trailing ellipsis. -/
def stripDots3 (s : Str) : Str :=
  match s.reverse with
  | '.' :: '.' :: '.' :: r => r.reverse
  | _ => s

/-- Order-preserving deduplication, as performed by `[...new Set(xs)]`. -/
def dedupS (l : List Str) : List Str :=
  l.foldl (fun acc x => if x ∈ acc then acc else acc ++ [x]) []

/-- Does `s` contain a question mark? -/
def hasQm (s : Str) : Bool := s.any (fun c => c = '?')

/- ===== generic scanners for the source's global regexes ===== -/

/-- One step of a JavaScript global-regex scan: `m prev cs` attempts a match
at the current position (`prev` is the character before it, for `\b`);
on success the scan resumes after the match, otherwise one position later. -/
def scanAll (m : Option Char → Str → Option (Str × Str)) :
    Nat → Option Char → Str → List Str
  | 0, _, _ => []
  | Nat.succ fuel, prev, cs =>
    match m prev cs with
    | some (mat, rest) => mat :: scanAll m fuel mat.getLast? rest
    | none =>
      match cs with
      | [] => []
      | c :: cs2 => scanAll m fuel (some c) cs2

/-- `s.match(re)` with the `g` flag: all non-overlapping matches. -/
def runScan (m : Option Char → Str → Option (Str × Str)) (s : Str) : List Str :=
  scanAll m (s.length + 1) none s

def isWordOpt : Option Char → Bool
  | none => false
  | some c => isWordB c

/-- `\b` between `prev` and the character `c` that the match starts with. -/
def boundaryOk (prev : Option Char) (c : Char) : Bool :=
  isWordOpt prev != isWordB c

/-- `\b` between the last matched character and the rest of the input. -/
def boundaryAfter (lastC : Char) (rest : Str) : Bool :=
  isWordB lastC != isWordOpt rest.head?

/-- Candidate spans of one capitalized token `[A-Z][\p{L}’'-]+` (at least
two characters), longest body first: the greedy `+` gives characters back
one at a time when the remainder of the pattern fails. -/
def tokCands (cs : Str) : List (Str × Str) :=
  match cs with
  | [] => []
  | c :: r =>
    if c.isUpper then
      let ds := (r.span isNameB).1
      let rst := (r.span isNameB).2
      ((List.range ds.length).map (fun i => ds.length - i)).map
        (fun j => (c :: ds.take j, ds.drop j ++ rst))
    else []

/-- Candidate spans of `(?:\s[A-Z][\p{L}’'-]+){0,k}` extension tokens, in
the engine's preference order: more repetitions first, each repetition's
token longest first, the empty span last.  Entries carry the repetition
count, the consumed text and the rest. -/
def phraseCands : Nat → Str → List (Nat × Str × Str)
  | 0, cs => [(0, [], cs)]
  | Nat.succ k, cs =>
    (match cs with
     | s :: r =>
       if isWsB s then
         (tokCands r).flatMap (fun tc =>
           (phraseCands k tc.2).map
             (fun p => (p.1 + 1, s :: (tc.1 ++ p.2.1), p.2.2)))
       else []
     | [] => []) ++ [(0, [], cs)]

/-- `\b([A-Z][\p{L}’'-]+(?:\s[A-Z][\p{L}’'-]+){minE,maxE})\b` at the current
position (the capitalized-phrase actor pattern).  The quantifiers backtrack
as in the source engine: a failing trailing `\b` makes the last token give
back characters, then drops repetitions, then shortens the first token. -/
def matchCapPhrase (minE maxE : Nat) (prev : Option Char) (cs : Str) :
    Option (Str × Str) :=
  match cs with
  | [] => none
  | c :: _ =>
    if !boundaryOk prev c then none
    else
      (tokCands cs).findSome? (fun tc =>
        (phraseCands maxE tc.2).findSome? (fun p =>
          if p.1 < minE then none
          else
            let mat := tc.1 ++ p.2.1
            match mat.getLast? with
            | some lc =>
              if boundaryAfter lc p.2.2 then some (mat, p.2.2) else none
            | none => none))

def isMoneyCh (c : Char) : Bool := c.isDigit || c = ',' || c = '.'

/-- `\$[\d,.]+` at the current position. -/
def matchMoney : Str → Option (Str × Str)
  | [] => none
  | c :: cs =>
    if c = '$' then
      let p := cs.span isMoneyCh
      if p.1.isEmpty then none else some (c :: p.1, p.2)
    else none

/-- Exactly `n` digits. -/
def takeDigits : Nat → Str → Option (Str × Str)
  | 0, cs => some ([], cs)
  | Nat.succ n, cs =>
    match cs with
    | c :: r =>
      if c.isDigit then
        match takeDigits n r with
        | some (ds, r2) => some (c :: ds, r2)
        | none => none
      else none
    | [] => none

/-- Ascending prefixes of the greedy `(?:,\d{3})+` groups: entry `i` holds
the text of the first `i + 1` groups and the rest after them. -/
def g3prefixes : Nat → Str → List (Str × Str)
  | 0, _ => []
  | Nat.succ k, cs =>
    match cs with
    | ',' :: r =>
      match takeDigits 3 r with
      | some (ds, r2) =>
        (',' :: ds, r2) ::
          (g3prefixes k r2).map (fun p => (',' :: ds ++ p.1, p.2))
      | none => []
    | _ => []

/-- Candidate spans of the `(?:\.\d+)?` fraction, in the engine's
preference order: the greedy fraction first, giving digits back one at a
time, then no fraction at all. -/
def fracCands (cs : Str) : List (Str × Str) :=
  match cs with
  | '.' :: r =>
    let ds := (r.span Char.isDigit).1
    let rst := (r.span Char.isDigit).2
    (((List.range ds.length).map (fun i => ds.length - i)).map
      (fun j => ('.' :: ds.take j, ds.drop j ++ rst))) ++ [([], cs)]
  | _ => [([], cs)]

/-- `\b\d{1,3}(?:,\d{3})+(?:\.\d+)?\b` at the current position.  The
quantifiers backtrack as in the source engine: when the trailing `\b`
fails, the fraction gives back digits and then drops, then trailing groups
are given back, then the leading digits shorten. -/
def matchGrouped (prev : Option Char) (cs : Str) : Option (Str × Str) :=
  match cs with
  | [] => none
  | c :: _ =>
    if boundaryOk prev c then
      [3, 2, 1].findSome? (fun k =>
        match takeDigits k cs with
        | none => none
        | some (ds, r) =>
          ((g3prefixes r.length r).reverse).findSome? (fun gp =>
            (fracCands gp.2).findSome? (fun fc =>
              let mat := ds ++ gp.1 ++ fc.1
              match mat.getLast? with
              | some lc =>
                if boundaryAfter lc fc.2 then some (mat, fc.2) else none
              | none => none)))
    else none

/-- `\b\d+%` at the current position. -/
def matchPct (prev : Option Char) (cs : Str) : Option (Str × Str) :=
  match cs with
  | [] => none
  | c :: _ =>
    if boundaryOk prev c then
      let p := cs.span Char.isDigit
      if p.1.isEmpty then none
      else
        match p.2 with
        | '%' :: r2 => some (p.1 ++ ['%'], r2)
        | _ => none
    else none

/-- The number/money/percent alternation
`\$[\d,.]+|\b\d{1,3}(?:,\d{3})+(?:\.\d+)?\b|\b\d+%` (line 458). -/
def matchNumAt (prev : Option Char) (cs : Str) : Option (Str × Str) :=
  (matchMoney cs).orElse
    (fun _ => (matchGrouped prev cs).orElse (fun _ => matchPct prev cs))

/-- `“([^”]{10,140})”` (line 462). -/
def matchQuoteAt (_ : Option Char) (cs : Str) : Option (Str × Str) :=
  match cs with
  | [] => none
  | c :: r =>
    if c = '“' then
      let p := r.span (fun d => !(d = '”'))
      match p.2 with
      | d :: r2 =>
        if 10 ≤ p.1.length ∧ p.1.length ≤ 140 then some (c :: p.1 ++ [d], r2)
        else none
      | [] => none
    else none

/-- Case-insensitive literal: consume input matching the lowercase
pattern `p`, returning the consumed original characters. -/
def ciTake : Str → Str → Option (Str × Str)
  | [], s => some ([], s)
  | _ :: _, [] => none
  | p :: ps, c :: cs =>
    if lowCh c = p then
      match ciTake ps cs with
      | some (m, r) => some (c :: m, r)
      | none => none
    else none

/-- First case-insensitive literal of `pats` that matches here. -/
def firstCI (pats : List Str) (cs : Str) : Option (Str × Str) :=
  match pats with
  | [] => none
  | p :: ps =>
    match ciTake p cs with
    | some r => some r
    | none => firstCI ps cs

def monthNames : List Str :=
  [("january").toList, ("february").toList, ("march").toList, ("april").toList,
   ("may").toList, ("june").toList, ("july").toList, ("august").toList,
   ("september").toList, ("october").toList, ("november").toList,
   ("december").toList]

/-- Greedy `\d{1,2}`. -/
def take2Digits (cs : Str) : Option (Str × Str) :=
  match cs with
  | a :: b :: r =>
    if a.isDigit then
      if b.isDigit then some ([a, b], r) else some ([a], b :: r)
    else none
  | [a] => if a.isDigit then some ([a], []) else none
  | [] => none

/-- Optional `(?:,\s*\d{4})?` year suffix. -/
def yearOpt (cs : Str) : Str × Str :=
  match cs with
  | ',' :: r =>
    let p := r.span isWsB
    match takeDigits 4 p.2 with
    | some (ds, r3) => (',' :: p.1 ++ ds, r3)
    | none => ([], cs)
  | _ => ([], cs)

/-- Optional `(?:,\s*\d{1,2}:\d{2}\s?(?:AM|PM))?` time suffix. -/
def timeOpt (cs : Str) : Str × Str :=
  match cs with
  | ',' :: r =>
    let p := r.span isWsB
    match take2Digits p.2 with
    | some (hh, r3) =>
      match r3 with
      | ':' :: r4 =>
        match takeDigits 2 r4 with
        | some (mns, r5) =>
          let q :=
            match r5 with
            | w :: rw => if isWsB w then (([w] : Str), rw) else (([] : Str), r5)
            | [] => (([] : Str), r5)
          match firstCI [("am").toList, ("pm").toList] q.2 with
          | some (ap, r7) => (',' :: p.1 ++ hh ++ ':' :: mns ++ q.1 ++ ap, r7)
          | none => ([], cs)
        | none => ([], cs)
      | _ => ([], cs)
    | none => ([], cs)
  | _ => ([], cs)

/-- The date pattern
`\b(January|…|December)\s+\d{1,2}(?:,\s*\d{4})?(?:,\s*\d{1,2}:\d{2}\s?(?:AM|PM))?`
with the `i` flag (line 466). -/
def matchDateAt (prev : Option Char) (cs : Str) : Option (Str × Str) :=
  match cs with
  | [] => none
  | c :: _ =>
    if boundaryOk prev c then
      match firstCI monthNames cs with
      | none => none
      | some (mon, r) =>
        let p := r.span isWsB
        if p.1.isEmpty then none
        else
          match take2Digits p.2 with
          | none => none
          | some (ds, r3) =>
            match yearOpt r3 with
            | (yr, r4) =>
              match timeOpt r4 with
              | (tm, r5) => some (mon ++ p.1 ++ ds ++ yr ++ tm, r5)
    else none

/-- One keyword alternative `\b(kw s?)\b`, case-insensitive. -/
def kwTry (k : Str) (opt : Bool) (prev : Option Char) (cs : Str) :
    Option (Str × Str) :=
  match cs with
  | [] => none
  | c :: _ =>
    if boundaryOk prev c then
      match ciTake k cs with
      | none => none
      | some (m, r) =>
        let q :=
          match r with
          | d :: rr => if opt = true ∧ lowCh d = 's' then (m ++ [d], rr) else (m, r)
          | [] => (m, r)
        match q.1.getLast? with
        | some lc => if boundaryAfter lc q.2 then some q else none
        | none => none
    else none

def kwScan (kws : List (Str × Bool)) (prev : Option Char) (cs : Str) :
    Option (Str × Str) :=
  match kws with
  | [] => none
  | (k, opt) :: rest => (kwTry k opt prev cs).orElse (fun _ => kwScan rest prev cs)

/-- Greedy `[^.]{0,60}` tail. -/
def tailNoDot (cs : Str) : Str × Str :=
  let t := (cs.takeWhile (fun c => !(c = '.'))).take 60
  (t, cs.drop t.length)

def impactKws : List (Str × Bool) :=
  [(("could").toList, false), (("would").toList, false), (("face").toList, true),
   (("penalty").toList, false), (("ban").toList, false), (("cost").toList, false),
   (("delay").toList, false), (("risk").toList, false), (("cut").toList, false),
   (("tax").toList, false), (("fee").toList, false), (("fine").toList, false),
   (("closure").toList, false), (("layoff").toList, true),
   (("suspend").toList, false), (("probation").toList, false)]

/-- `\b(could|would|faces?|…|probation)\b[^.]{0,60}` with `gi` (line 470). -/
def matchImpactAt (prev : Option Char) (cs : Str) : Option (Str × Str) :=
  match kwScan impactKws prev cs with
  | some (m, r) =>
    match tailNoDot r with
    | (t, r2) => some (m ++ t, r2)
  | none => none

def compKws : List (Str × Bool) :=
  [(("vs.").toList, false), (("compared with").toList, false),
   (("more than").toList, false), (("less than").toList, false),
   (("tops").toList, false), (("lags").toList, false), (("rank").toList, true)]

/-- `\b(vs\.|compared with|more than|less than|tops|lags|ranks?)\b[^.]{0,60}`
with `gi` (line 474). -/
def matchCompAt (prev : Option Char) (cs : Str) : Option (Str × Str) :=
  match kwScan compKws prev cs with
  | some (m, r) =>
    match tailNoDot r with
    | (t, r2) => some (m ++ t, r2)
  | none => none

/- ===== actor cleaning and hook extraction (lines 422-482) ===== -/

/-- `ACTOR_STOP` (line 422). -/
def ACTOR_STOP : List Str :=
  [("Boston.com").toList, ("Sports News").toList, ("News").toList,
   ("Today").toList, ("Opinion").toList, ("Local News").toList,
   ("Restaurant News").toList, ("Most Popular").toList, ("Sign Up").toList,
   ("Read More").toList, ("Newsletter").toList, ("Email").toList,
   ("Comments").toList, ("Create an Account").toList,
   ("Minutes to Read").toList, ("Sha").toList, ("Share").toList]

/-- `/^\d{1,2}:\d{2}\s?(AM|PM)$/i` as a whole-string test (line 432). -/
def matchTimeFull (s : Str) : Bool :=
  match take2Digits s with
  | none => false
  | some (_, r) =>
    match r with
    | ':' :: r2 =>
      match takeDigits 2 r2 with
      | none => false
      | some (_, r3) =>
        let r4 :=
          match r3 with
          | w :: rw => if isWsB w then rw else r3
          | [] => r3
        match firstCI [("am").toList, ("pm").toList] r4 with
        | some (_, r5) => r5.isEmpty
        | none => false
    | _ => false

/-- Case-insensitive test that `s` starts with the lowercase pattern `p`. -/
def startsCI (p : Str) (s : Str) : Bool := (ciTake p s).isSome

/-- Case-insensitive containment of the lowercase pattern `p`. -/
def containsCI (p : Str) (s : Str) : Bool := subS p (lowS s)

/-- Case-insensitive test that `s` ends with the lowercase pattern `p`. -/
def endsCI (p : Str) (s : Str) : Bool := startsS p.reverse (lowS s).reverse

/-- `cleanActor` of the final iteration (lines 427-435): strip no-break
spaces and trim, then reject stop-list entries, clock times, and anything
matching `/^Read|Sign|Most|Sports$/i` (which anchors only its first and
last alternative). -/
def cleanActor (s : Str) : Str :=
  let t := trimS (s.map (fun c => if c = ' ' then ' ' else c))
  if t.isEmpty then []
  else if t ∈ ACTOR_STOP then []
  else if matchTimeFull t then []
  else if startsCI (("read").toList) t || containsCI (("sign").toList) t ||
      containsCI (("most").toList) t || endsCI (("sports").toList) t then []
  else t

/-- `extractActorsFromTitle` (lines 437-445). -/
def extractActorsFromTitle (title : Str) : List Str :=
  (dedupS ((runScan (matchCapPhrase 0 3) title).filterMap (fun cand =>
    let c := cleanActor cand
    if c.isEmpty then none else some c))).take 3

/-- The `HookSet` record filled in by `extractHooks`. -/
structure Hooks where
  numbers : List Str
  quotes : List Str
  dates : List Str
  actors : List Str
  impacts : List Str
  comparisons : List Str
deriving Repr, DecidableEq

/-- `extractHooks` of the final iteration (lines 447-482). -/
def extractHooks (text : Str) (title : Str) : Hooks :=
  let t := collapseWs text
  let titleActors := extractActorsFromTitle title
  let bodyActors :=
    (((runScan (matchCapPhrase 1 3) t).map cleanActor).filter
      (fun a => !a.isEmpty)).take 4
  let actors := ((dedupS (titleActors ++ bodyActors)).filter
    (fun a => !a.isEmpty)).take 4
  let numbers := dedupS ((runScan matchNumAt t).take 4)
  let quotes := ((runScan matchQuoteAt t).take 2).map
    (fun q => q.filter (fun c => !(c = '“' || c = '”')))
  let dates := dedupS (((runScan matchDateAt t).take 2).map
    (fun d => (trimS d).take 28))
  let impacts := ((runScan matchImpactAt t).take 2).map
    (fun s => trimS (collapseWs s))
  let comparisons := ((runScan matchCompAt t).take 1).map
    (fun s => trimS (collapseWs s))
  ⟨numbers, quotes, dates, actors, impacts, comparisons⟩

/- ===== domain detection (lines 487-496) ===== -/

/-- One alternative of an unparenthesized `.test` alternation: a literal,
whether it tolerates a trailing `s` (`charges?`, `ranks?`), and whether the
regex's leading/trailing `\b` applies to it (only the first and last
alternative of each of the source's domain regexes carry a boundary). -/
structure Alt where
  core : Str
  optS : Bool
  lb : Bool
  rb : Bool

/-- Does alternative `a` match at the current position? -/
def altAt (a : Alt) (prev : Option Char) (cs : Str) : Bool :=
  match cs with
  | [] => false
  | c :: _ =>
    if a.lb && !boundaryOk prev c then false
    else if startsS a.core cs then
      let r := cs.drop a.core.length
      let consumed :=
        if a.optS then
          match r with
          | 's' :: _ => a.core ++ [('s' : Char)]
          | _ => a.core
        else a.core
      let rest := cs.drop consumed.length
      if a.rb then
        match consumed.getLast? with
        | some lc => boundaryAfter lc rest
        | none => false
      else true
    else false

/-- Does alternative `a` occur anywhere in `cs`? -/
def occursS (a : Alt) (prev : Option Char) (cs : Str) : Bool :=
  altAt a prev cs ||
    match cs with
    | [] => false
    | c :: r => occursS a (some c) r

/-- `re.test(hay)` for an alternation of literals. -/
def testAlts (alts : List Alt) (hay : Str) : Bool :=
  alts.any (fun a => occursS a none hay)

def sportsAlts : List Alt :=
  [⟨("sport").toList, false, true, false⟩, ⟨("patriots").toList, false, false, false⟩,
   ⟨("bruins").toList, false, false, false⟩, ⟨("celtics").toList, false, false, false⟩,
   ⟨("red sox").toList, false, false, false⟩, ⟨("revs").toList, false, false, false⟩,
   ⟨("nws l").toList, false, false, false⟩, ⟨("coach").toList, false, false, false⟩,
   ⟨("contract").toList, false, false, false⟩, ⟨("game").toList, false, false, false⟩,
   ⟨("season").toList, false, false, true⟩]

def entAlts : List Alt :=
  [⟨("arts").toList, false, true, false⟩, ⟨("entertain").toList, false, false, false⟩,
   ⟨("celebrity").toList, false, false, false⟩, ⟨("film").toList, false, false, false⟩,
   ⟨("series").toList, false, false, false⟩, ⟨("tv").toList, false, false, false⟩,
   ⟨("cast").toList, false, false, false⟩, ⟨("director").toList, false, false, false⟩,
   ⟨("premiere").toList, false, false, false⟩, ⟨("episode").toList, false, false, true⟩]

def govAlts : List Alt :=
  [⟨("city council").toList, false, true, false⟩,
   ⟨("select board").toList, false, false, false⟩,
   ⟨("board of directors").toList, false, false, false⟩,
   ⟨("commission").toList, false, false, false⟩,
   ⟨("hearing").toList, false, false, false⟩, ⟨("vote").toList, false, false, false⟩,
   ⟨("ordinance").toList, false, false, false⟩, ⟨("zoning").toList, false, false, false⟩,
   ⟨("mayor").toList, false, false, false⟩, ⟨("governor").toList, false, false, false⟩,
   ⟨("legislature").toList, false, false, true⟩]

def courtsAlts : List Alt :=
  [⟨("court").toList, false, true, false⟩, ⟨("arraign").toList, false, false, false⟩,
   ⟨("indicted").toList, false, false, false⟩, ⟨("charge").toList, true, false, false⟩,
   ⟨("trial").toList, false, false, false⟩, ⟨("jury").toList, false, false, false⟩,
   ⟨("appeal").toList, false, false, false⟩, ⟨("appeals").toList, false, false, true⟩]

def reAlts : List Alt :=
  [⟨("real estate").toList, false, true, false⟩,
   ⟨("home sales").toList, false, false, false⟩,
   ⟨("median price").toList, false, false, false⟩,
   ⟨("zillow").toList, false, false, false⟩, ⟨("bbj").toList, false, false, true⟩]

def sportsD : Str := ("sports").toList

def entD : Str := ("entertainment").toList

def govD : Str := ("gov").toList

def courtsD : Str := ("courts").toList

def reD : Str := ("realestate").toList

def genD : Str := ("general").toList

/-- `detectDomain` (lines 487-496).  The sports, entertainment and
real-estate rules test the concatenation of lowercased section and text;
the gov and courts rules test the lowercased text alone. -/
def detectDomain (text : Str) (sec : Str) : Str :=
  let s := lowS sec
  let t := lowS text
  if testAlts sportsAlts (s ++ t) then sportsD
  else if testAlts entAlts (s ++ t) then entD
  else if testAlts govAlts t then govD
  else if testAlts courtsAlts t then courtsD
  else if testAlts reAlts (s ++ t) then reD
  else genD

/- ===== style constraints (lines 520-526) ===== -/

/-- `BANNED_PHRASES` (line 520). -/
def BANNED_PHRASES : List Str :=
  [("discover").toList, ("find out").toList, ("learn").toList,
   ("see how").toList, ("see why").toList, ("read how").toList,
   ("read why").toList, ("here’s how").toList, ("here's how").toList,
   ("here’s why").toList, ("here's why").toList, ("this is why").toList,
   ("this is how").toList, ("unveil").toList, ("unveils").toList,
   ("unveiled").toList, ("reveal").toList, ("reveals").toList,
   ("revealed").toList, ("uncover").toList, ("explore").toList]

/-- `QUESTIONY_OPENERS` (line 525). -/
def QUESTIONY_OPENERS : List Str :=
  [("what").toList, ("which").toList, ("how").toList, ("why").toList,
   ("where").toList, ("who").toList, ("when").toList, ("does").toList,
   ("do").toList, ("can").toList, ("should").toList, ("will").toList,
   ("is").toList, ("are").toList, ("could").toList, ("would").toList,
   ("did").toList]

/-- `FIRST_WORD_CAP` (line 526). -/
def FIRST_WORD_CAP : Nat := 2

/- ===== move templates (lines 531-577) ===== -/

/-- The argument object `{actor, number, when}` passed to a move template
(line 680): `hooks.actors[0]`, `hooks.numbers[0]`, `hooks.dates[0]`. -/
structure HookArgs where
  actor : Option Str
  number : Option Str
  when : Option Str

/-- JavaScript truthiness of an optional string. -/
def optTruthy : Option Str → Bool
  | none => false
  | some s => !s.isEmpty

/-- `o || d` for an optional string. -/
def optOr (o : Option Str) (d : Str) : Str :=
  match o with
  | some s => if s.isEmpty then d else s
  | none => d

/-- `MOVES.general.next`, also the neutral first-word-cap fallback
sentence (lines 563 and 688). -/
def generalNext : Str := ("What happens next is laid out inside.").toList

/-- The `MOVES` table (lines 531-566) combined with the lookup
`(MOVES[domain] || MOVES.general)[moveKey] || MOVES.general.next`
(lines 678-679). -/
def MOVES (domain mv : Str) (h : HookArgs) : Str :=
  if domain = sportsD then
    if mv = ("quote").toList then
      ("Read ").toList ++ optOr h.actor (("the player").toList) ++
        ("’s key line in context.").toList
    else if mv = ("stat").toList then
      ("See the figure that defines the deal").toList ++
        (if optTruthy h.number then
          (" (").toList ++ (h.number.getD []) ++ (")").toList
        else []) ++ (".").toList
    else if mv = ("next").toList then
      ("Next on the calendar").toList ++
        (if optTruthy h.when then (": ").toList ++ (h.when.getD []) else []) ++
        ("—details inside.").toList
    else if mv = ("analysis").toList then
      ("How the move changes the lineup is broken down inside.").toList
    else generalNext
  else if domain = entD then
    if mv = ("timeline").toList then
      ("Production timeline and who’s attached are inside.").toList
    else if mv = ("quote").toList then
      ("Read the line that’s shaping reactions.").toList
    else if mv = ("role").toList then
      ("See how the role is framed—and what it signals.").toList
    else if mv = ("release").toList then
      ("Release window and episode plan are in the story.").toList
    else generalNext
  else if domain = govD then
    if mv = ("next").toList then
      ("Next step is scheduled").toList ++
        (if optTruthy h.when then
          (" (").toList ++ (h.when.getD []) ++ (")").toList
        else []) ++ ("—agenda details inside.").toList
    else if mv = ("money").toList then
      ("A budget line carries the weight—the amount is listed.").toList
    else if mv = ("map").toList then
      ("Where the plan faces its toughest test is mapped inside.").toList
    else if mv = ("board").toList then
      ("Inside: the board’s role—and what happens next.").toList
    else generalNext
  else if domain = courtsD then
    if mv = ("docket").toList then
      ("Key filings and next court date are listed inside.").toList
    else if mv = ("quote").toList then
      ("Read the line lawyers are leaning on.").toList
    else if mv = ("stakes").toList then
      ("What’s at stake if the motion fails is outlined.").toList
    else generalNext
  else if domain = reD then
    if mv = ("rank").toList then
      ("See the ranking and the number that moves the list.").toList
    else if mv = ("map").toList then
      ("Neighborhoods driving the shift are shown on the map.").toList
    else if mv = ("money").toList then
      ("Price bands and who’s buying are broken down.").toList
    else generalNext
  else
    if mv = ("readWhat").toList then
      ("Read what ").toList ++ optOr h.actor (("officials").toList) ++
        (" said").toList ++
        (if optTruthy h.when then (" on ").toList ++ (h.when.getD []) else []) ++
        (".").toList
    else if mv = ("number").toList then
      ("One figure reframes the story—see the number.").toList
    else if mv = ("next").toList then generalNext
    else if mv = ("quote").toList then
      ("A single line is driving pushback—read it in the piece.").toList
    else generalNext

/-- `/\bboard\b/i.test(hooks.impacts.join(" "))` (line 572). -/
def boardTest (impacts : List Str) : Bool :=
  occursS ⟨("board").toList, false, true, true⟩ none (lowS (joinSp impacts))

/-- `pickMoveForDomain` (lines 568-577). -/
def pickMoveForDomain (domain : Str) (hooks : Hooks) : Str :=
  if domain = sportsD then
    if optTruthy hooks.numbers.head? then ("stat").toList
    else if optTruthy hooks.quotes.head? then ("quote").toList
    else ("analysis").toList
  else if domain = entD then
    if optTruthy hooks.dates.head? then ("timeline").toList
    else if optTruthy hooks.quotes.head? then ("quote").toList
    else ("role").toList
  else if domain = govD then
    if optTruthy hooks.dates.head? then ("next").toList
    else if boardTest hooks.impacts then ("board").toList
    else if optTruthy hooks.numbers.head? then ("money").toList
    else ("map").toList
  else if domain = courtsD then
    if optTruthy hooks.dates.head? then ("docket").toList
    else if optTruthy hooks.quotes.head? then ("quote").toList
    else ("stakes").toList
  else if domain = reD then
    if optTruthy hooks.numbers.head? then ("rank").toList
    else ("map").toList
  else
    if optTruthy hooks.actors.head? then ("readWhat").toList
    else if optTruthy hooks.numbers.head? then ("number").toList
    else ("next").toList

/- ===== validators and guard state (lines 582-607) ===== -/

/-- `isQuestionish` (lines 582-587). -/
def isQuestionish (s : Str) : Bool :=
  let lower := lowS (trimS s)
  subS (("?").toList) lower || decide ((wordsS lower).headD [] ∈ QUESTIONY_OPENERS)

/-- `needsRewrite` (lines 589-597). -/
def needsRewrite (b3 : Str) (recent : List Str) : Bool :=
  if b3.isEmpty then true
  else
    let lower := lowS b3
    if isQuestionish lower then true
    else if BANNED_PHRASES.any (fun p => subS p lower) then true
    else
      let op2 := firstTwoWords lower
      !op2.isEmpty && decide (op2 ∈ recent)

/-- The run-scoped `HistoryState`: `recentOpeners` (seeded from the prior
artifact and appended to during the run), `usedOpeners` and the
`firstWordFreq` counter, as threaded by `main` (lines 706-709). -/
structure GuardState where
  recentOpeners : List Str
  usedOpeners : List Str
  firstWordFreq : Str → Nat

/-- `applyCapsAndRecord` (lines 599-607). -/
def applyCapsAndRecord (line : Str) (st : GuardState) : Str × GuardState :=
  let s := trimS (stripQm line)
  let op2 := firstTwoWords s
  let first := firstWordJS s
  (s,
    { recentOpeners :=
        if op2 ∈ st.recentOpeners then st.recentOpeners
        else st.recentOpeners ++ [op2],
      usedOpeners :=
        if op2 ∈ st.usedOpeners then st.usedOpeners
        else st.usedOpeners ++ [op2],
      firstWordFreq := fun x =>
        if x = first then st.firstWordFreq x + 1 else st.firstWordFreq x })

/- ===== per-article pipeline (lines 612-696) and the batch loop ===== -/

/-- The defensive filler bullet (line 673). -/
def fillerBullet : Str := ("Further context is in the full story.").toList

/-- `b.replace(/\s+/g, " ").replace(/\.\.\.$/, "").trim()` (line 672). -/
def cleanBullet (b : Str) : Str := trimS (stripDots3 (collapseWs b))

/-- Pad to three bullets with the filler sentence (line 673). -/
def padTo3 (l : List Str) : List Str :=
  l ++ List.replicate (3 - l.length) fillerBullet

/-- Parsed model output after cleanup and padding (lines 662-673):
`obj.bullets.slice(0,3)`, cleaned, re-sliced and padded to three. -/
def prepared (mb : List Str) : List Str :=
  padTo3 (((mb.take 3).map cleanBullet).take 3)

/-- One surviving feed item: article data plus whatever bullet list was
parsed out of the generation collaborator's response (the collaborator is
external; its parsed output is an arbitrary string list). -/
structure ItemRun where
  title : Str
  text : Str
  sec : Str
  modelBullets : List Str

/-- The pure core of `summarizeItem` (lines 612-696): clean and pad the
model bullets, rewrite bullet 3 through the move table when
`needsRewrite` fires, apply the first-word cap, and record the opener. -/
def summarizeItem (it : ItemRun) (st : GuardState) : List Str × GuardState :=
  let hooks := extractHooks it.text it.title
  let domain := detectDomain it.text it.sec
  let bs := prepared it.modelBullets
  let b3 := bs.getD 2 []
  let b3a :=
    if needsRewrite b3 st.recentOpeners then
      MOVES domain (pickMoveForDomain domain hooks)
        ⟨hooks.actors.head?, hooks.numbers.head?, hooks.dates.head?⟩
    else b3
  let b3b :=
    if FIRST_WORD_CAP ≤ st.firstWordFreq (firstWordJS b3a) then generalNext
    else b3a
  let r := applyCapsAndRecord b3b st
  (bs.set 2 r.1, r.2)

/-- The batch loop of `main` (lines 715-731) over the surviving items:
each article is processed in order and the guard state is threaded
through. -/
def runBatch : List ItemRun → GuardState → List (List Str) × GuardState
  | [], st => ([], st)
  | it :: rest, st =>
    ((summarizeItem it st).1 :: (runBatch rest (summarizeItem it st).2).1,
      (runBatch rest (summarizeItem it st).2).2)

/-- The guard state at the start of a run: seeded openers, no used
openers, all first-word counts zero (lines 706-709). -/
def initState (seed : List Str) : GuardState :=
  ⟨seed, [], fun _ => 0⟩

/- ===== the earlier iteration's teaser builder (first half of
`generate_summaries.mjs`, lines 74-250) ===== -/

/-- `ACTOR_STOP` of the earlier iteration (lines 74-77). -/
def ACTOR_STOP0 : List Str :=
  [("Boston.com").toList, ("Sports News").toList, ("News").toList,
   ("Today").toList, ("Opinion").toList, ("Local News").toList,
   ("Restaurant News").toList, ("Most Popular").toList, ("Sign Up").toList,
   ("Read More").toList, ("Newsletter").toList, ("Email").toList,
   ("Comments").toList, ("Create an Account").toList,
   ("Minutes to Read").toList, ("Share").toList, ("Globe").toList,
   ("AP").toList, ("Associated Press").toList, ("Reuters").toList]

/-- `/\b(January|…|December)\b/` (line 95, case-sensitive). -/
def monthAlts : List Alt :=
  [⟨("January").toList, false, true, true⟩, ⟨("February").toList, false, true, true⟩,
   ⟨("March").toList, false, true, true⟩, ⟨("April").toList, false, true, true⟩,
   ⟨("May").toList, false, true, true⟩, ⟨("June").toList, false, true, true⟩,
   ⟨("July").toList, false, true, true⟩, ⟨("August").toList, false, true, true⟩,
   ⟨("September").toList, false, true, true⟩, ⟨("October").toList, false, true, true⟩,
   ⟨("November").toList, false, true, true⟩, ⟨("December").toList, false, true, true⟩]

/-- `/\b\d{1,2}:\d{2}\s?(AM|PM)\b/i` at one position (line 96). -/
def timeAt (prev : Option Char) (cs : Str) : Bool :=
  match cs with
  | [] => false
  | c :: _ =>
    boundaryOk prev c &&
      match take2Digits cs with
      | some (_, r) =>
        (match r with
         | ':' :: r2 =>
           (match takeDigits 2 r2 with
            | some (_, r3) =>
              let r4 :=
                match r3 with
                | w :: rw => if isWsB w then rw else r3
                | [] => r3
              (match firstCI [("am").toList, ("pm").toList] r4 with
               | some (ap, r5) =>
                 (match ap.getLast? with
                  | some lc => boundaryAfter lc r5
                  | none => false)
               | none => false)
            | none => false)
         | _ => false)
      | none => false

/-- `/\b\d{1,2}:\d{2}\s?(AM|PM)\b/i.test` (line 96). -/
def occursTimeCI (prev : Option Char) (cs : Str) : Bool :=
  timeAt prev cs ||
    match cs with
    | [] => false
    | c :: r => occursTimeCI (some c) r

/-- `/^\d{4}$/` (line 97). -/
def isYear4 (s : Str) : Bool := s.length = 4 && s.all Char.isDigit

/-- One alternative of `/^(The|A|An)\s+/i`. -/
def artTry (p : Str) (s : Str) : Option Str :=
  match ciTake p s with
  | some (_, r) =>
    let q := r.span isWsB
    if q.1.isEmpty then none else some q.2
  | none => none

/-- `s.replace(/^(The|A|An)\s+/i, "").trim()` (line 103). -/
def stripArticle (s : Str) : Str :=
  match (artTry (("the").toList) s).orElse
      (fun _ => (artTry (("a").toList) s).orElse
        (fun _ => artTry (("an").toList) s)) with
  | some r => trimS r
  | none => s

/-- `cleanActor` of the earlier iteration (lines 84-109). -/
def cleanActor0 (raw : Str) : Str :=
  let s0 := trimS (raw.map (fun c => if c = ' ' then ' ' else c))
  if s0.isEmpty then []
  else if s0 ∈ ACTOR_STOP0 then []
  else
    let s1 :=
      if lowS ((wordsS s0).headD []) ∈ QUESTIONY_OPENERS then
        trimS (joinSp (wordsS s0).tail)
      else s0
    if testAlts monthAlts s1 then []
    else if occursTimeCI none s1 then []
    else if isYear4 s1 then []
    else if lowS s1 = ("las vegas").toList then []
    else
      let s2 := stripArticle s1
      if !(s2.any isWsB) && s2.length < 4 then []
      else s2

/-- `actorsFromTitle` of the earlier iteration (lines 111-119). -/
def actorsFromTitle (title : Str) : List Str :=
  dedupS ((runScan (matchCapPhrase 0 3) title).filterMap (fun cand =>
    let c := cleanActor0 cand
    if c.isEmpty then none else some c))

/-- `pickBestActor` (lines 121-129). -/
def pickBestActor (hooks : Hooks) (title : Str) : Str :=
  match actorsFromTitle title with
  | a :: _ => a
  | [] => (((hooks.actors.map cleanActor0).find? (fun c => !c.isEmpty))).getD []

/-- `/(discover|find out|learn|see how|see why|reveal|unveil|uncover)/i.test`
(`BANNED_PHRASES` of the earlier iteration, line 186). -/
def bannedRegexV1 (line : Str) : Bool :=
  [("discover").toList, ("find out").toList, ("learn").toList,
   ("see how").toList, ("see why").toList, ("reveal").toList,
   ("unveil").toList, ("uncover").toList].any (fun p => subS p (lowS line))

/-- First truthy entry of a template list (`list.find(Boolean)`). -/
def findTruthy : List (Option Str) → Option Str
  | [] => none
  | o :: rest =>
    match o with
    | some s => if s.isEmpty then findTruthy rest else some s
    | none => findTruthy rest

/-- The string keys at which indexing the template object literal of
`buildTeaser` yields a truthy inherited value although they are not own
keys: the own property names of `Object.prototype`.  `T[domain]` at such a
key is a function (or `Object.prototype` itself for `__proto__`), not an
array, so `list.find` is undefined and the call throws a `TypeError`. -/
def protoKeys : List Str :=
  [("constructor").toList, ("hasOwnProperty").toList, ("isPrototypeOf").toList,
   ("propertyIsEnumerable").toList, ("toLocaleString").toList,
   ("toString").toList, ("valueOf").toList, ("__defineGetter__").toList,
   ("__defineSetter__").toList, ("__lookupGetter__").toList,
   ("__lookupSetter__").toList, ("__proto__").toList]

/-- The template list selected by `T[domain] || T.general` inside
`buildTeaser` (lines 209-243): the six own keys select their line lists, a
domain naming an `Object.prototype` member selects a truthy non-array
(`none` here, the `TypeError` path of `list.find`), and every other domain
falls back to the general list. -/
def teaserList (hooks : Hooks) (domain : Str) (title : Str) :
    Option (List (Option Str)) :=
  let actor := pickBestActor hooks title
  let num := hooks.numbers.head?
  if domain = sportsD then
    some [if actor.isEmpty then none
          else some (("Read what ").toList ++ actor ++ (" said.").toList),
          if optTruthy num then
            some (("See the number that defines the deal (").toList ++
              num.getD [] ++ (").").toList)
          else none,
          some (("How the move changes the lineup is broken down inside.").toList)]
  else if domain = entD then
    some [some (("Production timeline and who’s attached are inside.").toList),
          some (("Read the quote shaping reactions.").toList),
          some (("Release window and episode plan are in the story.").toList)]
  else if domain = govD then
    some [some (("Next step is scheduled—agenda details inside.").toList),
          some (("Inside: the board’s role—and what happens next.").toList),
          some (("A budget line carries the weight—the amount is listed.").toList)]
  else if domain = courtsD then
    some [some (("Key filings and the next court date are listed inside.").toList),
          some (("Read the line lawyers are leaning on.").toList),
          some (("What’s at stake if the motion fails is outlined.").toList)]
  else if domain = reD then
    some [some (if optTruthy num then
             ("See the ranking’s key number (").toList ++
               num.getD [] ++ (").").toList
           else ("See the ranking and what moved it.").toList),
          some (("Neighborhoods driving the shift are shown on the map.").toList),
          some (("Price bands and who’s buying are broken down.").toList)]
  else if domain ∈ protoKeys then none
  else
    some [if actor.isEmpty then none
          else some (("Read what ").toList ++ actor ++ (" said.").toList),
          some (if optTruthy num then
             ("One figure reframes the story—see the number (").toList ++
               num.getD [] ++ (").").toList
           else ("One figure reframes the story—see the number.").toList),
          some (("What happens next is laid out inside.").toList)]

/-- `buildTeaser` of the earlier iteration (lines 205-250).  The result is
`none` on the `TypeError` path of the `T[domain]` lookup. -/
def buildTeaser (hooks : Hooks) (domain : Str) (title : Str) : Option Str :=
  match teaserList hooks domain title with
  | none => none
  | some list =>
    let line0 := (findTruthy list).getD generalNext
    let line1 := trimS (stripDots3 line0)
    some (if bannedRegexV1 line1 then generalNext else line1)

/-- Modelled from the spec: the classification rule as §4.2 and the C9
claim describe it — every rule, including gov and courts, is a membership
test over the concatenation of the section label and the body text.  This
is the comparison point for `detectDomain`, which tests gov and courts on
the text alone. -/
def classifySpec (text : Str) (sec : Str) : Str :=
  let s := lowS sec
  let t := lowS text
  if testAlts sportsAlts (s ++ t) then sportsD
  else if testAlts entAlts (s ++ t) then entD
  else if testAlts govAlts (s ++ t) then govD
  else if testAlts courtsAlts (s ++ t) then courtsD
  else if testAlts reAlts (s ++ t) then reD
  else genD

/-- A sentence consisting of a first word (without whitespace or question
marks) followed by a space and a remainder.  Every move template produced
by `MOVES` has this shape, whatever hooks are interpolated. -/
def FwShape (x : Str) : Prop :=
  ∃ w t, x = w ++ ' ' :: t ∧ w ≠ [] ∧ ∀ c ∈ w, isWsB c = false ∧ ¬c = '?'

/-- Executable check for `FwShape`. -/
def fwCheck (x : Str) : Bool :=
  let w := x.takeWhile (fun c => !isWsB c)
  !w.isEmpty && w.all (fun c => !(c = '?')) &&
    ((x.dropWhile (fun c => !isWsB c)).head? = some ' ')

/- ===== decomposition of `summarizeItem` ===== -/

/-- Bullet 3 as parsed/cleaned/padded from the model output. -/
def preparedThird (mb : List Str) : Str := (prepared mb).getD 2 []

/-- Bullet 3 after the `needsRewrite` step (lines 676-682). -/
def rewrittenB3 (it : ItemRun) (st : GuardState) : Str :=
  if needsRewrite (preparedThird it.modelBullets) st.recentOpeners then
    MOVES (detectDomain it.text it.sec)
      (pickMoveForDomain (detectDomain it.text it.sec) (extractHooks it.text it.title))
      ⟨(extractHooks it.text it.title).actors.head?,
        (extractHooks it.text it.title).numbers.head?,
        (extractHooks it.text it.title).dates.head?⟩
  else preparedThird it.modelBullets

/-- Bullet 3 after the first-word cap (lines 684-689). -/
def gatedB3 (it : ItemRun) (st : GuardState) : Str :=
  if FIRST_WORD_CAP ≤ st.firstWordFreq (firstWordJS (rewrittenB3 it st)) then
    generalNext
  else rewrittenB3 it st

/-- The teaser actually emitted for an article. -/
def teaserOf (it : ItemRun) (st : GuardState) : Str :=
  trimS (stripQm (gatedB3 it st))

/-- The first word of the emitted third bullet of a result row. -/
def thirdFW (r : List Str) : Str := firstWordJS (r.getD 2 [])

/- ===== concrete items used as counterexamples and witnesses ===== -/

/-- The banned phrases named by the specification's property list:
discover, find out, learn, see how, see why, reveal/unveil/uncover and the
stock here's-how / here's-why phrasings. -/
def claimBanned : List Str :=
  [("discover").toList, ("find out").toList, ("learn").toList,
   ("see how").toList, ("see why").toList, ("reveal").toList,
   ("unveil").toList, ("uncover").toList, ("here's how").toList,
   ("here’s how").toList, ("here's why").toList, ("here’s why").toList]

/-- A featureless general-domain article whose collaborator bullet 3 is
empty, forcing the rewrite path. -/
def itemGeneral : ItemRun :=
  ⟨[], [], [], [("A.").toList, ("B.").toList, []]⟩

/-- A gov-domain article (body mentions the city council) without date,
number, quote or board hooks, with an empty third model bullet. -/
def itemGov : ItemRun :=
  ⟨[], ("City council hearing on zoning.").toList, [],
    [("A.").toList, ("B.").toList, []]⟩

/-- A gov-domain article whose body carries a date hook. -/
def itemDate : ItemRun :=
  ⟨[], ("The hearing is set for March 5.").toList, [],
    [("One.").toList, ("Two.").toList, []]⟩

/-- An entertainment-section article with no date or quote hooks. -/
def itemEnt : ItemRun :=
  ⟨[], [], ("Arts").toList, [("A.").toList, ("B.").toList, []]⟩

/-- An article whose collaborator returned three empty strings. -/
def itemEmpty3 : ItemRun :=
  ⟨[], [], [], [[], [], []]⟩

/-- An article whose collaborator bullets all pass `needsRewrite`. -/
def itemOk : ItemRun :=
  ⟨[], [], [],
    [("Officials met on Monday.").toList, ("Roads closed early.").toList,
      ("Crews remain at the scene today.").toList]⟩

/-- A string ending in a period that is not part of a trailing ellipsis. -/
def EndsDot (x : Str) : Prop := ∃ pre a, x = pre ++ [a, '.'] ∧ ¬a = '.'

/-- Executable check for `EndsDot`. -/
def edCheck (x : Str) : Bool :=
  match x.reverse with
  | '.' :: a :: _ => !(decide (a = '.'))
  | _ => false

/-- Every string this optional template line can carry ends in a plain
period. -/
def OptED (o : Option Str) : Prop := ∀ y, o = some y → EndsDot y

/- ===== basic lemmas about the primitives ===== -/

theorem char_toNat_ofNat_valid (n : Nat) (h : n.isValidChar) :
    (Char.ofNat n).toNat = n := by
  simp [Char.ofNat, h, Char.toNat, Char.ofNatAux, UInt32.ofNat', UInt32.toNat,
    BitVec.toNat_ofNatLt]

theorem char_toNat_injective {a b : Char} (h : a.toNat = b.toNat) : a = b := by
  apply Char.ext
  unfold Char.toNat at h
  exact UInt32.ext (by exact h)

theorem lowCh_cases (c : Char) :
    (65 ≤ c.toNat ∧ c.toNat ≤ 90 ∧ (lowCh c).toNat = c.toNat + 32) ∨ lowCh c = c := by
  unfold lowCh Char.toLower
  by_cases h : c.toNat ≥ 65 ∧ c.toNat ≤ 90
  · left
    refine ⟨h.1, h.2, ?_⟩
    simp only [h, and_self, if_true]
    apply char_toNat_ofNat_valid
    left
    have := h.2
    omega
  · right; simp [h]

theorem lowCh_isWs (c : Char) : isWsB (lowCh c) = isWsB c := by
  rcases lowCh_cases c with ⟨h1, h2, h3⟩ | h
  · have hc : ∀ d : Char, isWsB d = true → d.toNat < 65 ∨ d.toNat = 160 := by
      intro d hd
      simp only [isWsB, Bool.or_eq_true, decide_eq_true_eq] at hd
      rcases hd with ((((((h | h) | h) | h) | h) | h) | h) <;> subst h <;> simp [Char.toNat] <;> decide
    have h4 : isWsB (lowCh c) = false := by
      by_contra hne
      have := hc (lowCh c) (by revert hne; cases isWsB (lowCh c) <;> simp)
      omega
    have h5 : isWsB c = false := by
      by_contra hne
      have := hc c (by revert hne; cases isWsB c <;> simp)
      omega
    rw [h4, h5]
  · rw [h]

theorem lowCh_eq_qm (c : Char) : lowCh c = '?' ↔ c = '?' := by
  constructor
  · intro h
    rcases lowCh_cases c with ⟨h1, h2, h3⟩ | h'
    · exfalso
      rw [h] at h3
      have : ('?' : Char).toNat = 63 := by decide
      omega
    · rw [← h', h]
  · intro h
    subst h
    decide

theorem lowCh_idem (c : Char) : lowCh (lowCh c) = lowCh c := by
  rcases lowCh_cases c with ⟨h1, h2, h3⟩ | h
  · rcases lowCh_cases (lowCh c) with ⟨g1, g2, g3⟩ | g
    · omega
    · exact g
  · rw [h]
    exact h

theorem lowS_nil : lowS [] = [] := rfl

theorem lowS_cons (c : Char) (s : Str) : lowS (c :: s) = lowCh c :: lowS s := rfl

theorem lowS_idem (s : Str) : lowS (lowS s) = lowS s := by
  simp only [lowS, List.map_map]
  apply List.map_congr_left
  intro c _
  exact lowCh_idem c

theorem lowS_append (a b : Str) : lowS (a ++ b) = lowS a ++ lowS b := by
  simp [lowS]

theorem trimLeftS_lowS (s : Str) : trimLeftS (lowS s) = lowS (trimLeftS s) := by
  induction s with
  | nil => rfl
  | cons c cs ih =>
    rw [lowS_cons]
    simp only [trimLeftS, List.dropWhile_cons, lowCh_isWs]
    by_cases h : isWsB c
    · simp only [h, if_true]
      exact ih
    · simp [h, lowS]

theorem trimRightS_lowS (s : Str) : trimRightS (lowS s) = lowS (trimRightS s) := by
  induction s with
  | nil => rfl
  | cons c cs ih =>
    rw [lowS_cons]
    simp only [trimRightS, ih]
    cases h : trimRightS cs with
    | nil =>
      rw [lowS_nil]
      by_cases hw : isWsB c <;> simp [hw, lowCh_isWs, lowS]
    | cons r rs =>
      simp [lowS]

theorem trimS_lowS (s : Str) : trimS (lowS s) = lowS (trimS s) := by
  unfold trimS
  rw [trimLeftS_lowS, trimRightS_lowS]

theorem wordsS_cons2 (c d : Char) (t : Str) :
    wordsS (c :: d :: t) =
      if isWsB c then wordsS (d :: t)
      else if isWsB d then [c] :: wordsS (d :: t)
      else
        match wordsS (d :: t) with
        | [] => [[c]]
        | w :: ws => (c :: w) :: ws := rfl

theorem wordsS_lowS (s : Str) : wordsS (lowS s) = (wordsS s).map lowS := by
  induction s with
  | nil => rfl
  | cons c cs ih =>
    rw [lowS_cons]
    cases cs with
    | nil =>
      by_cases h : isWsB c <;> simp [wordsS, lowCh_isWs, h, lowS]
    | cons d ds =>
      rw [lowS_cons, wordsS_cons2, wordsS_cons2, lowCh_isWs, lowCh_isWs, ← lowS_cons, ih]
      by_cases h : isWsB c
      · simp [h]
      · by_cases hd : isWsB d
        · simp [h, hd, lowS]
        · simp only [h, hd, if_false]
          cases hw : wordsS (d :: ds) with
          | nil => simp [lowS]
          | cons w ws => simp [lowS]

theorem trimRightS_cons (a : Char) (as : Str) :
    trimRightS (a :: as) =
      match trimRightS as with
      | [] => if isWsB a then [] else [a]
      | r => a :: r := rfl

theorem mem_trimRightS {c : Char} {s : Str} (h : c ∈ trimRightS s) : c ∈ s := by
  induction s with
  | nil => simpa [trimRightS] using h
  | cons a as ih =>
    rw [trimRightS_cons] at h
    cases htr : trimRightS as with
    | nil =>
      rw [htr] at h
      by_cases hw : isWsB a
      · simp [hw] at h
      · rw [if_neg hw] at h
        simp only [List.mem_singleton] at h
        simp [h]
    | cons r rs =>
      rw [htr] at h
      rcases List.mem_cons.mp h with h | h
      · simp [h]
      · exact List.mem_cons_of_mem a (ih (by rw [htr]; exact h))

theorem mem_trimS {c : Char} {s : Str} (h : c ∈ trimS s) : c ∈ s := by
  unfold trimS at h
  have := mem_trimRightS h
  exact (List.dropWhile_sublist _).mem this

theorem trimRightS_nonempty {s : Str} {c : Char} (hc : c ∈ s) (hw : isWsB c = false) :
    trimRightS s ≠ [] := by
  induction s with
  | nil => simp at hc
  | cons a as ih =>
    simp only [trimRightS]
    rcases List.mem_cons.mp hc with h | h
    · subst h
      cases htr : trimRightS as with
      | nil => simp [hw]
      | cons r rs => simp
    · have := ih h
      cases htr : trimRightS as with
      | nil => exact absurd htr this
      | cons r rs => simp

theorem trimLeftS_mem {s : Str} {c : Char} (hc : c ∈ s) (hw : isWsB c = false) :
    c ∈ trimLeftS s := by
  induction s with
  | nil => simp at hc
  | cons a as ih =>
    simp only [trimLeftS, List.dropWhile_cons]
    rcases List.mem_cons.mp hc with h | h
    · subst h
      simp [hw]
    · by_cases ha : isWsB a
      · simp only [ha, if_true]
        exact ih h
      · simp [ha, List.mem_cons, h]

theorem trimS_nonempty {s : Str} {c : Char} (hc : c ∈ s) (hw : isWsB c = false) :
    trimS s ≠ [] := by
  unfold trimS
  exact trimRightS_nonempty (trimLeftS_mem hc hw) hw

theorem trimLeftS_idem (s : Str) : trimLeftS (trimLeftS s) = trimLeftS s := by
  unfold trimLeftS
  induction s with
  | nil => rfl
  | cons a as ih =>
    simp only [List.dropWhile_cons]
    by_cases h : isWsB a
    · simp [h, ih]
    · simp [h]

theorem trimRightS_idem (s : Str) : trimRightS (trimRightS s) = trimRightS s := by
  induction s with
  | nil => rfl
  | cons a as ih =>
    rw [trimRightS_cons]
    cases htr : trimRightS as with
    | nil =>
      by_cases h : isWsB a
      · rw [if_pos h]
        rfl
      · rw [if_neg h]
        show trimRightS [a] = [a]
        rw [trimRightS_cons]
        simp [trimRightS, h]
    | cons r rs =>
      rw [htr] at ih
      show trimRightS (a :: r :: rs) = a :: r :: rs
      rw [trimRightS_cons, ih]

theorem trimLeftS_trimRightS (s : Str) :
    trimLeftS (trimRightS (trimLeftS s)) = trimRightS (trimLeftS s) := by
  have hhead : ∀ w, (trimLeftS s).head? = some w → isWsB w = false := by
    intro w hw
    have h0 := List.head?_dropWhile_not isWsB s
    unfold trimLeftS at hw
    rw [hw] at h0
    exact h0
  cases h : trimLeftS s with
  | nil => simp [trimRightS, trimLeftS]
  | cons c cs =>
    have hc : isWsB c = false := hhead c (by rw [h]; rfl)
    rw [trimRightS_cons]
    cases htr : trimRightS cs with
    | nil =>
      rw [if_neg (by simp [hc])]
      simp [trimLeftS, hc]
    | cons r rs =>
      simp [trimLeftS, hc]

theorem trimS_idem (s : Str) : trimS (trimS s) = trimS s := by
  unfold trimS
  rw [trimLeftS_trimRightS, trimRightS_idem]

theorem stripQm_of_noQm {s : Str} (h : hasQm s = false) : stripQm s = s := by
  unfold stripQm
  rw [List.filter_eq_self]
  intro a ha
  simp only [hasQm, List.any_eq_true, not_exists] at h
  simp only [Bool.not_eq_true']
  by_cases hq : a = '?'
  · exfalso
    rcases List.any_eq_false.mp h a ha with h2
    simp [hq] at h2
  · simp [hq]

theorem hasQm_stripQm (s : Str) : hasQm (stripQm s) = false := by
  unfold hasQm stripQm
  rw [List.any_eq_false]
  intro a ha
  have := List.of_mem_filter ha
  simp only [Bool.not_eq_true'] at this
  simpa using this

theorem hasQm_lowS (s : Str) : hasQm (lowS s) = hasQm s := by
  unfold hasQm lowS
  cases h : s.any (fun c => c = '?') with
  | false =>
    rw [List.any_eq_false] at h ⊢
    intro a ha
    rcases List.mem_map.mp ha with ⟨b, hb, rfl⟩
    have := h b hb
    simp only [decide_eq_true_eq] at this ⊢
    intro hcontra
    exact this ((lowCh_eq_qm b).mp hcontra)
  | true =>
    rw [List.any_eq_true] at h ⊢
    rcases h with ⟨a, ha, he⟩
    refine ⟨lowCh a, List.mem_map_of_mem lowCh ha, ?_⟩
    simp only [decide_eq_true_eq] at he ⊢
    rw [he]
    decide

theorem hasQm_trimS_le {s : Str} (h : hasQm s = false) : hasQm (trimS s) = false := by
  unfold hasQm at *
  rw [List.any_eq_false] at h ⊢
  intro a ha
  exact h a (mem_trimS ha)

theorem startsS_eq_true_iff (p : Str) : ∀ s, startsS p s = true ↔ p <+: s := by
  induction p with
  | nil =>
    intro s
    simp [startsS, List.nil_prefix]
  | cons a as ih =>
    intro s
    cases s with
    | nil =>
      simp only [startsS, Bool.false_eq_true, false_iff]
      intro hx
      have := hx.length_le
      simp at this
    | cons b bs =>
      simp only [startsS, Bool.and_eq_true, decide_eq_true_eq, ih bs,
        List.cons_prefix_cons]

theorem subS_eq_true_iff (p : Str) : ∀ h, subS p h = true ↔ p <:+: h := by
  intro h
  induction h with
  | nil =>
    rw [subS]
    cases p with
    | nil => simp [startsS]
    | cons a as =>
      simp only [Bool.or_false, startsS_eq_true_iff]
      constructor
      · intro hx
        exact List.IsPrefix.isInfix hx
      · intro hx
        have := hx.length_le
        simp at this
  | cons c cs ih =>
    rw [subS]
    simp only [Bool.or_eq_true, startsS_eq_true_iff, ih]
    constructor
    · rintro (hx | hx)
      · exact List.IsPrefix.isInfix hx
      · exact List.infix_cons hx
    · intro hx
      rcases hx with ⟨pre, suf, hps⟩
      cases pre with
      | nil =>
        left
        exact ⟨suf, by simpa using hps⟩
      | cons x xs =>
        right
        simp only [List.cons_append] at hps
        injection hps with h1 h2
        exact ⟨xs, suf, h2⟩

theorem subS_append_self (a d b : Str) : subS d (a ++ (d ++ b)) = true := by
  rw [subS_eq_true_iff]
  exact ⟨a, b, by simp⟩

/- ===== structural lemmas on words, trim and first words ===== -/

theorem wordsS_ws_cons (c : Char) (r : Str) (h : isWsB c = true) :
    wordsS (c :: r) = wordsS r := by
  cases r with
  | nil => simp [wordsS, h]
  | cons d ds => rw [wordsS_cons2]; simp [h]

theorem wordsS_all_nonws (w : Str) (hw : w ≠ []) (hc : ∀ c ∈ w, isWsB c = false) :
    wordsS w = [w] := by
  induction w with
  | nil => simp at hw
  | cons a as ih =>
    have ha : isWsB a = false := hc a (by simp)
    cases as with
    | nil => simp [wordsS, ha]
    | cons b bs =>
      have hb : isWsB b = false := hc b (by simp)
      rw [wordsS_cons2, if_neg (by simp [ha]), if_neg (by simp [hb])]
      rw [ih (by simp) (fun c hcm => hc c (List.mem_cons_of_mem a hcm))]

theorem wordsS_word_sep (w : Str) (r : Str) (hw : w ≠ [])
    (hc : ∀ c ∈ w, isWsB c = false) :
    wordsS (w ++ ' ' :: r) = w :: wordsS r := by
  induction w with
  | nil => simp at hw
  | cons a as ih =>
    have ha : isWsB a = false := hc a (by simp)
    cases as with
    | nil =>
      simp only [List.cons_append, List.nil_append]
      rw [wordsS_cons2, if_neg (by simp [ha]), if_pos (by decide)]
      rw [wordsS_ws_cons ' ' r (by decide)]
    | cons b bs =>
      have hb : isWsB b = false := hc b (by simp)
      simp only [List.cons_append]
      rw [wordsS_cons2]
      simp only [List.cons_append] at ih
      rw [ih (by simp) (fun c hcm => hc c (List.mem_cons_of_mem a hcm))]
      simp [ha, hb]

theorem trimRightS_nonws_append (w x : Str) (hc : ∀ c ∈ w, isWsB c = false) :
    trimRightS (w ++ x) = w ++ trimRightS x := by
  induction w with
  | nil => simp
  | cons a as ih =>
    have ha : isWsB a = false := hc a (by simp)
    simp only [List.cons_append]
    rw [trimRightS_cons, ih (fun c hcm => hc c (List.mem_cons_of_mem a hcm))]
    cases htr : as ++ trimRightS x with
    | nil =>
      rcases List.append_eq_nil.mp htr with ⟨h1, h2⟩
      simp [ha, h1, h2]
    | cons r rs => simp

theorem trimLeftS_nonws_cons (c : Char) (t : Str) (h : isWsB c = false) :
    trimLeftS (c :: t) = c :: t := by
  simp [trimLeftS, List.dropWhile_cons, h]

theorem trimRightS_head {s : Str} {c : Char} {cs : Str}
    (h : trimRightS s = c :: cs) : ∃ t, s = c :: t := by
  cases s with
  | nil => simp [trimRightS] at h
  | cons a as =>
    rw [trimRightS_cons] at h
    cases htr : trimRightS as with
    | nil =>
      rw [htr] at h
      have h2 : (if isWsB a = true then ([] : Str) else [a]) = c :: cs := h
      by_cases hw : isWsB a
      · rw [if_pos hw] at h2
        exact absurd h2 (by simp)
      · rw [if_neg hw] at h2
        injection h2 with h3 h4
        exact ⟨as, by rw [h3]⟩
    | cons r rs =>
      rw [htr] at h
      have h2 : a :: r :: rs = c :: cs := h
      injection h2 with h3 h4
      exact ⟨as, by rw [h3]⟩

theorem trimS_head_nonws {s : Str} {c : Char} {cs : Str}
    (h : trimS s = c :: cs) : isWsB c = false := by
  unfold trimS at h
  rcases trimRightS_head h with ⟨t, ht⟩
  have h0 := List.head?_dropWhile_not isWsB s
  unfold trimLeftS at ht
  rw [ht] at h0
  exact h0

theorem joinSp_lowS (ws : List Str) : joinSp (ws.map lowS) = lowS (joinSp ws) := by
  induction ws with
  | nil => rfl
  | cons w rest ih =>
    cases rest with
    | nil => simp [joinSp]
    | cons v vs =>
      simp only [List.map_cons, joinSp] at ih ⊢
      rw [ih, lowS_append]
      have : lowS (' ' :: joinSp (v :: vs)) = ' ' :: lowS (joinSp (v :: vs)) := by
        rw [lowS_cons]
        norm_num [lowCh]
        decide
      simp only [joinSp] at this
      rw [← this]

theorem firstTwoWords_lowS (s : Str) : firstTwoWords (lowS s) = firstTwoWords s := by
  unfold firstTwoWords
  rw [trimS_lowS, wordsS_lowS, ← List.map_take, joinSp_lowS, lowS_idem]

theorem jsFirstTok_lowS (s : Str) : jsFirstTok (lowS s) = lowS (jsFirstTok s) := by
  cases s with
  | nil => rfl
  | cons c t =>
    rw [lowS_cons]
    simp only [jsFirstTok, lowCh_isWs]
    by_cases h : isWsB c
    · simp [h, lowS]
    · simp only [h, if_false]
      rw [← lowS_cons, wordsS_lowS]
      cases hw : wordsS (c :: t) with
      | nil => simp [lowS]
      | cons w ws => simp

theorem firstWordJS_lowS (s : Str) : firstWordJS (lowS s) = firstWordJS s := by
  unfold firstWordJS
  rw [jsFirstTok_lowS, lowS_idem]

theorem firstWordJS_trimmed {s : Str} (h : trimS s = s) :
    firstWordJS s = lowS ((wordsS s).headD []) := by
  cases hs : s with
  | nil => rfl
  | cons c t =>
    have hc : isWsB c = false := trimS_head_nonws (by rw [h, hs])
    simp [firstWordJS, jsFirstTok, hc]

theorem singleton_subS (a : Char) (x : Str) : subS [a] x = true ↔ a ∈ x := by
  rw [subS_eq_true_iff]
  constructor
  · rintro ⟨pre, suf, heq⟩
    rw [← heq]
    simp
  · intro hm
    rcases List.append_of_mem hm with ⟨s, t, rfl⟩
    exact ⟨s, t, by simp⟩

theorem wordsS_head_cons (c : Char) (t : Str) (h : isWsB c = false) :
    ∃ w' ws', wordsS (c :: t) = (c :: w') :: ws' := by
  cases t with
  | nil => exact ⟨[], [], by simp [wordsS, h]⟩
  | cons d ds =>
    rw [wordsS_cons2, if_neg (by simp [h])]
    by_cases hd : isWsB d
    · exact ⟨[], wordsS (d :: ds), by simp [hd]⟩
    · rw [if_neg (by simp [hd])]
      cases hw : wordsS (d :: ds) with
      | nil => exact ⟨[], [], rfl⟩
      | cons w ws => exact ⟨w, ws, rfl⟩

theorem firstTwoWords_ne_nil {s : Str} (ht : trimS s = s) (hne : s ≠ []) :
    firstTwoWords s ≠ [] := by
  rcases List.exists_cons_of_ne_nil hne with ⟨c, t, rfl⟩
  have hc : isWsB c = false := trimS_head_nonws (by rw [ht])
  unfold firstTwoWords
  rw [ht]
  rcases wordsS_head_cons c t hc with ⟨w', ws', hw⟩
  rw [hw]
  cases ws' with
  | nil => simp [joinSp, lowS]
  | cons v vs => simp [joinSp, lowS]

theorem stripQm_word_sep (w r : Str) (hc : ∀ c ∈ w, ¬c = '?') :
    stripQm (w ++ ' ' :: r) = w ++ ' ' :: stripQm r := by
  unfold stripQm
  rw [List.filter_append]
  congr 1
  rw [List.filter_eq_self]
  intro a ha
  simpa using hc a ha

theorem firstWordJS_word_sep (w r : Str) (hw : w ≠ [])
    (hc : ∀ c ∈ w, isWsB c = false) :
    firstWordJS (w ++ ' ' :: r) = lowS w := by
  rcases List.exists_cons_of_ne_nil hw with ⟨a, w', rfl⟩
  unfold firstWordJS jsFirstTok
  simp only [List.cons_append]
  rw [if_neg (by simp [hc a (by simp)])]
  have := wordsS_word_sep (a :: w') r hw hc
  simp only [List.cons_append] at this
  rw [this]
  simp

theorem firstWordJS_all_nonws (w : Str) (hw : w ≠ [])
    (hc : ∀ c ∈ w, isWsB c = false) :
    firstWordJS w = lowS w := by
  rcases List.exists_cons_of_ne_nil hw with ⟨a, w', rfl⟩
  show lowS (if isWsB a = true then [] else (wordsS (a :: w')).headD []) = lowS (a :: w')
  rw [if_neg (by simp [hc a (by simp)])]
  rw [wordsS_all_nonws (a :: w') hw hc]
  simp [List.headD]

/-- The finalization `trimS (stripQm s)` applied by `applyCapsAndRecord`
keeps the first word of a sentence of the shape `word ++ " " ++ rest`
whose first word contains no whitespace and no question mark, and the
result is never empty. -/
theorem fw_master {s w rest : Str} (hs : s = w ++ ' ' :: rest) (hw : w ≠ [])
    (hc : ∀ c ∈ w, isWsB c = false ∧ ¬c = '?') :
    firstWordJS s = lowS w ∧
      firstWordJS (trimS (stripQm s)) = lowS w ∧
      trimS (stripQm s) ≠ [] := by
  have hcw : ∀ c ∈ w, isWsB c = false := fun c hm => (hc c hm).1
  have hcq : ∀ c ∈ w, ¬c = '?' := fun c hm => (hc c hm).2
  subst hs
  refine ⟨firstWordJS_word_sep w rest hw hcw, ?_, ?_⟩
  · rw [stripQm_word_sep w rest hcq]
    rcases List.exists_cons_of_ne_nil hw with ⟨a, w', rfl⟩
    unfold trimS
    have hl : trimLeftS ((a :: w') ++ ' ' :: stripQm rest) =
        (a :: w') ++ ' ' :: stripQm rest := by
      simp only [List.cons_append]
      exact trimLeftS_nonws_cons a (w' ++ ' ' :: stripQm rest) (hcw a (by simp))
    rw [hl, trimRightS_nonws_append (a :: w') (' ' :: stripQm rest) hcw]
    cases htr : trimRightS (' ' :: stripQm rest) with
    | nil =>
      rw [List.append_nil]
      exact firstWordJS_all_nonws (a :: w') hw hcw
    | cons d u =>
      rcases trimRightS_head htr with ⟨t2, ht2⟩
      injection ht2 with hd _
      subst hd
      exact firstWordJS_word_sep (a :: w') u hw hcw
  · rw [stripQm_word_sep w rest hcq]
    unfold trimS
    rcases List.exists_cons_of_ne_nil hw with ⟨a, w', rfl⟩
    have hl : trimLeftS ((a :: w') ++ ' ' :: stripQm rest) =
        (a :: w') ++ ' ' :: stripQm rest := by
      simp only [List.cons_append]
      exact trimLeftS_nonws_cons a (w' ++ ' ' :: stripQm rest) (hcw a (by simp))
    rw [hl, trimRightS_nonws_append (a :: w') (' ' :: stripQm rest) hcw]
    simp

/-- Like `fw_master`, for a single-word sentence. -/
theorem fw_single (w : Str) (hw : w ≠ [])
    (hc : ∀ c ∈ w, isWsB c = false ∧ ¬c = '?') :
    firstWordJS w = lowS w ∧
      firstWordJS (trimS (stripQm w)) = lowS w ∧
      trimS (stripQm w) ≠ [] := by
  have hcw : ∀ c ∈ w, isWsB c = false := fun c hm => (hc c hm).1
  have hq : hasQm w = false := by
    rw [hasQm, List.any_eq_false]
    intro a ha
    simpa using (hc a ha).2
  have hstrip : stripQm w = w := stripQm_of_noQm hq
  rcases List.exists_cons_of_ne_nil hw with ⟨a, w', rfl⟩
  have htrim : trimS (a :: w') = a :: w' := by
    unfold trimS
    rw [trimLeftS_nonws_cons a w' (hcw a (by simp))]
    have h2 := trimRightS_nonws_append (a :: w') [] hcw
    simp only [List.append_nil] at h2
    simp only [trimRightS] at h2
    simpa using h2
  rw [hstrip, htrim]
  exact ⟨firstWordJS_all_nonws (a :: w') hw hcw,
    firstWordJS_all_nonws (a :: w') hw hcw, hw⟩

theorem fwCheck_shape (x : Str) (h : fwCheck x = true) : FwShape x := by
  unfold fwCheck at h
  simp only [Bool.and_eq_true, Bool.not_eq_true', List.all_eq_true,
    decide_eq_true_eq] at h
  obtain ⟨⟨hne, hqm⟩, hdw⟩ := h
  refine ⟨x.takeWhile (fun c => !isWsB c), (x.dropWhile (fun c => !isWsB c)).tail, ?_, ?_, ?_⟩
  · cases hd : x.dropWhile (fun c => !isWsB c) with
    | nil => rw [hd] at hdw; simp at hdw
    | cons d u =>
      rw [hd] at hdw
      simp only [List.head?_cons, Option.some.injEq] at hdw
      subst hdw
      conv_lhs => rw [← List.takeWhile_append_dropWhile (p := fun c => !isWsB c) (l := x)]
      rw [hd]
      simp
  · intro hcon
    rw [hcon] at hne
    simp at hne
  · intro c hm
    refine ⟨?_, by simpa using hqm c hm⟩
    have := List.mem_takeWhile_imp hm
    simpa using this

theorem fwShape_app {x : Str} (y : Str) (h : FwShape x) : FwShape (x ++ y) := by
  obtain ⟨w, t, hx, hw, hc⟩ := h
  subst hx
  exact ⟨w, t ++ y, by simp, hw, hc⟩

/-- The finalization step keeps the first word, and never empties the
sentence, over any `FwShape` value. -/
theorem fw_of_shape {s : Str} (h : FwShape s) :
    firstWordJS (trimS (stripQm s)) = firstWordJS s ∧ trimS (stripQm s) ≠ [] := by
  obtain ⟨w, t, hx, hw, hc⟩ := h
  obtain ⟨h1, h2, h3⟩ := fw_master hx hw hc
  exact ⟨h2.trans h1.symm, h3⟩

/-- Every sentence the move table can produce starts with a fixed
whitespace-free, question-mark-free first word followed by a space. -/
theorem MOVES_shape (domain mv : Str) (h : HookArgs) : FwShape (MOVES domain mv h) := by
  by_cases hd1 : domain = sportsD
  · subst hd1
    by_cases hm1 : mv = ("quote").toList
    · subst hm1
      exact fwShape_app _ (fwShape_app _ (fwCheck_shape (("Read ").toList) (by decide)))
    · by_cases hm2 : mv = ("stat").toList
      · subst hm2
        exact fwShape_app _ (fwShape_app _
          (fwCheck_shape (("See the figure that defines the deal").toList) (by decide)))
      · by_cases hm3 : mv = ("next").toList
        · subst hm3
          exact fwShape_app _ (fwShape_app _
            (fwCheck_shape (("Next on the calendar").toList) (by decide)))
        · by_cases hm4 : mv = ("analysis").toList
          · subst hm4
            exact fwCheck_shape
              (("How the move changes the lineup is broken down inside.").toList)
              (by decide)
          · rw [show MOVES sportsD mv h = generalNext by
              unfold MOVES
              rw [if_pos rfl, if_neg hm1, if_neg hm2, if_neg hm3, if_neg hm4]]
            exact fwCheck_shape generalNext (by decide)
  · by_cases hd2 : domain = entD
    · subst hd2
      have hgen : MOVES entD mv h =
          (if mv = ("timeline").toList then
            ("Production timeline and who’s attached are inside.").toList
          else if mv = ("quote").toList then
            ("Read the line that’s shaping reactions.").toList
          else if mv = ("role").toList then
            ("See how the role is framed—and what it signals.").toList
          else if mv = ("release").toList then
            ("Release window and episode plan are in the story.").toList
          else generalNext) := by
        unfold MOVES
        rw [if_neg (by decide), if_pos rfl]
      rw [hgen]
      by_cases hm1 : mv = ("timeline").toList
      · rw [if_pos hm1]
        exact fwCheck_shape _ (by decide)
      · rw [if_neg hm1]
        by_cases hm2 : mv = ("quote").toList
        · rw [if_pos hm2]
          exact fwCheck_shape _ (by decide)
        · rw [if_neg hm2]
          by_cases hm3 : mv = ("role").toList
          · rw [if_pos hm3]
            exact fwCheck_shape _ (by decide)
          · rw [if_neg hm3]
            by_cases hm4 : mv = ("release").toList
            · rw [if_pos hm4]
              exact fwCheck_shape _ (by decide)
            · rw [if_neg hm4]
              exact fwCheck_shape generalNext (by decide)
    · by_cases hd3 : domain = govD
      · subst hd3
        have hgen : MOVES govD mv h =
            (if mv = ("next").toList then
              ("Next step is scheduled").toList ++
                (if optTruthy h.when then
                  (" (").toList ++ (h.when.getD []) ++ (")").toList
                else []) ++ ("—agenda details inside.").toList
            else if mv = ("money").toList then
              ("A budget line carries the weight—the amount is listed.").toList
            else if mv = ("map").toList then
              ("Where the plan faces its toughest test is mapped inside.").toList
            else if mv = ("board").toList then
              ("Inside: the board’s role—and what happens next.").toList
            else generalNext) := by
          unfold MOVES
          rw [if_neg (by decide), if_neg (by decide), if_pos rfl]
        rw [hgen]
        by_cases hm1 : mv = ("next").toList
        · rw [if_pos hm1]
          exact fwShape_app _ (fwShape_app _
            (fwCheck_shape (("Next step is scheduled").toList) (by decide)))
        · rw [if_neg hm1]
          by_cases hm2 : mv = ("money").toList
          · rw [if_pos hm2]
            exact fwCheck_shape _ (by decide)
          · rw [if_neg hm2]
            by_cases hm3 : mv = ("map").toList
            · rw [if_pos hm3]
              exact fwCheck_shape _ (by decide)
            · rw [if_neg hm3]
              by_cases hm4 : mv = ("board").toList
              · rw [if_pos hm4]
                exact fwCheck_shape _ (by decide)
              · rw [if_neg hm4]
                exact fwCheck_shape generalNext (by decide)
      · by_cases hd4 : domain = courtsD
        · subst hd4
          have hgen : MOVES courtsD mv h =
              (if mv = ("docket").toList then
                ("Key filings and next court date are listed inside.").toList
              else if mv = ("quote").toList then
                ("Read the line lawyers are leaning on.").toList
              else if mv = ("stakes").toList then
                ("What’s at stake if the motion fails is outlined.").toList
              else generalNext) := by
            unfold MOVES
            rw [if_neg (by decide), if_neg (by decide), if_neg (by decide), if_pos rfl]
          rw [hgen]
          by_cases hm1 : mv = ("docket").toList
          · rw [if_pos hm1]
            exact fwCheck_shape _ (by decide)
          · rw [if_neg hm1]
            by_cases hm2 : mv = ("quote").toList
            · rw [if_pos hm2]
              exact fwCheck_shape _ (by decide)
            · rw [if_neg hm2]
              by_cases hm3 : mv = ("stakes").toList
              · rw [if_pos hm3]
                exact fwCheck_shape _ (by decide)
              · rw [if_neg hm3]
                exact fwCheck_shape generalNext (by decide)
        · by_cases hd5 : domain = reD
          · subst hd5
            have hgen : MOVES reD mv h =
                (if mv = ("rank").toList then
                  ("See the ranking and the number that moves the list.").toList
                else if mv = ("map").toList then
                  ("Neighborhoods driving the shift are shown on the map.").toList
                else if mv = ("money").toList then
                  ("Price bands and who’s buying are broken down.").toList
                else generalNext) := by
              unfold MOVES
              rw [if_neg (by decide), if_neg (by decide), if_neg (by decide),
                if_neg (by decide), if_pos rfl]
            rw [hgen]
            by_cases hm1 : mv = ("rank").toList
            · rw [if_pos hm1]
              exact fwCheck_shape _ (by decide)
            · rw [if_neg hm1]
              by_cases hm2 : mv = ("map").toList
              · rw [if_pos hm2]
                exact fwCheck_shape _ (by decide)
              · rw [if_neg hm2]
                by_cases hm3 : mv = ("money").toList
                · rw [if_pos hm3]
                  exact fwCheck_shape _ (by decide)
                · rw [if_neg hm3]
                  exact fwCheck_shape generalNext (by decide)
          · have hgen : MOVES domain mv h =
                (if mv = ("readWhat").toList then
                  ("Read what ").toList ++ optOr h.actor (("officials").toList) ++
                    (" said").toList ++
                    (if optTruthy h.when then
                      (" on ").toList ++ (h.when.getD [])
                    else []) ++ (".").toList
                else if mv = ("number").toList then
                  ("One figure reframes the story—see the number.").toList
                else if mv = ("next").toList then generalNext
                else if mv = ("quote").toList then
                  ("A single line is driving pushback—read it in the piece.").toList
                else generalNext) := by
              unfold MOVES
              rw [if_neg hd1, if_neg hd2, if_neg hd3, if_neg hd4, if_neg hd5]
            rw [hgen]
            by_cases hm1 : mv = ("readWhat").toList
            · rw [if_pos hm1]
              exact fwShape_app _ (fwShape_app _ (fwShape_app _
                (fwShape_app _ (fwCheck_shape (("Read what ").toList) (by decide)))))
            · rw [if_neg hm1]
              by_cases hm2 : mv = ("number").toList
              · rw [if_pos hm2]
                exact fwCheck_shape _ (by decide)
              · rw [if_neg hm2]
                by_cases hm3 : mv = ("next").toList
                · rw [if_pos hm3]
                  exact fwCheck_shape generalNext (by decide)
                · rw [if_neg hm3]
                  by_cases hm4 : mv = ("quote").toList
                  · rw [if_pos hm4]
                    exact fwCheck_shape _ (by decide)
                  · rw [if_neg hm4]
                    exact fwCheck_shape generalNext (by decide)

theorem summarizeItem_fst (it : ItemRun) (st : GuardState) :
    (summarizeItem it st).1 =
      (prepared it.modelBullets).set 2 (teaserOf it st) := rfl

theorem summarizeItem_snd (it : ItemRun) (st : GuardState) :
    (summarizeItem it st).2 = (applyCapsAndRecord (gatedB3 it st) st).2 := rfl

theorem applyCaps_fst (b : Str) (st : GuardState) :
    (applyCapsAndRecord b st).1 = trimS (stripQm b) := rfl

theorem prepared_len (mb : List Str) : (prepared mb).length = 3 := by
  unfold prepared padTo3
  rw [List.length_append, List.length_replicate]
  have := List.length_take_le 3 ((mb.take 3).map cleanBullet)
  omega

theorem prepared_triple (mb : List Str) : ∃ a b c, prepared mb = [a, b, c] := by
  have h := prepared_len mb
  exact List.length_eq_three.mp h

theorem prepared_mem_trimmed (mb : List Str) :
    ∀ x ∈ prepared mb, trimS x = x := by
  intro x hx
  unfold prepared padTo3 at hx
  rcases List.mem_append.mp hx with hx | hx
  · have hx2 := List.mem_of_mem_take hx
    rcases List.mem_map.mp hx2 with ⟨b, _, rfl⟩
    exact trimS_idem _
  · have := List.eq_of_mem_replicate hx
    subst this
    decide

theorem preparedThird_trimmed (mb : List Str) :
    trimS (preparedThird mb) = preparedThird mb := by
  rcases prepared_triple mb with ⟨a, b, c, hp⟩
  have hm : c ∈ prepared mb := by rw [hp]; simp
  have := prepared_mem_trimmed mb c hm
  unfold preparedThird
  rw [hp]
  simpa using this

theorem third_of_result (it : ItemRun) (st : GuardState) :
    (summarizeItem it st).1.getD 2 [] = teaserOf it st := by
  rw [summarizeItem_fst]
  rcases prepared_triple it.modelBullets with ⟨a, b, c, hp⟩
  rw [hp]
  rfl

/- ===== consequences of a negative `needsRewrite` verdict ===== -/

theorem needsRewrite_false_facts {b3 : Str} {recent : List Str}
    (ht : trimS b3 = b3) (h : needsRewrite b3 recent = false) :
    b3 ≠ [] ∧ hasQm b3 = false ∧
      (∀ p ∈ BANNED_PHRASES, subS p (lowS b3) = false) ∧
      firstTwoWords b3 ∉ recent ∧
      firstWordJS b3 ∉ QUESTIONY_OPENERS := by
  have hne : b3 ≠ [] := by
    intro hcon
    rw [hcon] at h
    simp [needsRewrite] at h
  rcases List.exists_cons_of_ne_nil hne with ⟨c0, t0, rfl⟩
  unfold needsRewrite at h
  rw [if_neg (by simp)] at h
  by_cases hq : isQuestionish (lowS (c0 :: t0)) = true
  · rw [if_pos hq] at h
    simp at h
  · have hq' : isQuestionish (lowS (c0 :: t0)) = false := by
      revert hq
      cases isQuestionish (lowS (c0 :: t0)) <;> simp
    rw [if_neg (by simp [hq'])] at h
    by_cases hb : BANNED_PHRASES.any (fun p => subS p (lowS (c0 :: t0))) = true
    · rw [if_pos hb] at h
      simp at h
    · have hb' : BANNED_PHRASES.any (fun p => subS p (lowS (c0 :: t0))) = false := by
        revert hb
        cases BANNED_PHRASES.any (fun p => subS p (lowS (c0 :: t0))) <;> simp
      rw [if_neg (by simp [hb'])] at h
      have hlowtrim : lowS (trimS (lowS (c0 :: t0))) = lowS (c0 :: t0) := by
        rw [trimS_lowS, ht, lowS_idem]
      have hquse := hq'
      unfold isQuestionish at hquse
      simp only [Bool.or_eq_false_iff] at hquse
      obtain ⟨hq1, hq2⟩ := hquse
      rw [hlowtrim] at hq1 hq2
      have hqm : hasQm (c0 :: t0) = false := by
        rw [← hasQm_lowS]
        cases hqq : hasQm (lowS (c0 :: t0)) with
        | false => rfl
        | true =>
          exfalso
          unfold hasQm at hqq
          rcases List.any_eq_true.mp hqq with ⟨a, ha, he⟩
          simp only [decide_eq_true_eq] at he
          subst he
          have : subS [('?' : Char)] (lowS (c0 :: t0)) = true :=
            (singleton_subS _ _).mpr ha
          rw [show [('?' : Char)] = ("?").toList from rfl] at this
          rw [this] at hq1
          simp at hq1
      refine ⟨hne, hqm, ?_, ?_, ?_⟩
      · intro p hp
        have := List.any_eq_false.mp hb' p hp
        revert this
        cases subS p (lowS (c0 :: t0)) <;> simp
      · have hft : firstTwoWords (lowS (c0 :: t0)) = firstTwoWords (c0 :: t0) :=
          firstTwoWords_lowS _
        have hop2 : firstTwoWords (c0 :: t0) ≠ [] := firstTwoWords_ne_nil ht hne
        simp only [Bool.and_eq_false_iff, Bool.not_eq_false'] at h
        rcases h with h | h
        · exfalso
          rw [hft] at h
          simp only [List.isEmpty_iff] at h
          exact hop2 h
        · rw [hft] at h
          simpa using h
      · have hc0 : isWsB c0 = false := trimS_head_nonws (by rw [ht])
        have hfw : firstWordJS (c0 :: t0) = lowS ((wordsS (c0 :: t0)).headD []) := by
          simp [firstWordJS, jsFirstTok, hc0]
        rw [hfw]
        intro hmem
        have : decide ((wordsS (lowS (c0 :: t0))).headD [] ∈ QUESTIONY_OPENERS) = false := hq2
        rw [wordsS_lowS] at this
        have hhead : (List.map lowS (wordsS (c0 :: t0))).headD [] =
            lowS ((wordsS (c0 :: t0)).headD []) := by
          cases hw : wordsS (c0 :: t0) with
          | nil => simp [lowS]
          | cons w ws => simp
        rw [hhead] at this
        simp only [decide_eq_false_iff_not] at this
        exact this hmem

theorem bool_ne_true_eq_false {x : Bool} (h : ¬x = true) : x = false := by
  revert h
  cases x <;> simp

/-- The finalization never moves the first word of the gated bullet and
never empties it. -/
theorem teaser_core (it : ItemRun) (st : GuardState) :
    firstWordJS (teaserOf it st) = firstWordJS (gatedB3 it st) ∧
      teaserOf it st ≠ [] := by
  unfold teaserOf gatedB3
  by_cases hcap : FIRST_WORD_CAP ≤ st.firstWordFreq (firstWordJS (rewrittenB3 it st))
  · rw [if_pos hcap]
    exact ⟨by decide, by decide⟩
  · rw [if_neg hcap]
    unfold rewrittenB3
    by_cases hnr : needsRewrite (preparedThird it.modelBullets) st.recentOpeners = true
    · rw [if_pos hnr]
      exact fw_of_shape (MOVES_shape _ _ _)
    · rw [if_neg hnr]
      obtain ⟨hne, hqm, _, _, _⟩ :=
        needsRewrite_false_facts (preparedThird_trimmed it.modelBullets)
          (bool_ne_true_eq_false hnr)
      have hnoop : trimS (stripQm (preparedThird it.modelBullets)) =
          preparedThird it.modelBullets := by
        rw [stripQm_of_noQm hqm, preparedThird_trimmed]
      rw [hnoop]
      exact ⟨rfl, hne⟩

theorem teaser_noQm (it : ItemRun) (st : GuardState) :
    hasQm (teaserOf it st) = false := by
  unfold teaserOf
  exact hasQm_trimS_le (hasQm_stripQm _)

theorem step_freq_char (it : ItemRun) (st : GuardState) (w : Str) :
    (summarizeItem it st).2.firstWordFreq w =
      if w = firstWordJS (teaserOf it st) then st.firstWordFreq w + 1
      else st.firstWordFreq w := rfl

theorem step_opener_mem (it : ItemRun) (st : GuardState) :
    firstTwoWords (teaserOf it st) ∈ (summarizeItem it st).2.recentOpeners := by
  rw [summarizeItem_snd]
  show firstTwoWords (teaserOf it st) ∈
    (if firstTwoWords (teaserOf it st) ∈ st.recentOpeners then st.recentOpeners
     else st.recentOpeners ++ [firstTwoWords (teaserOf it st)])
  by_cases hm : firstTwoWords (teaserOf it st) ∈ st.recentOpeners
  · rw [if_pos hm]
    exact hm
  · rw [if_neg hm]
    simp

theorem step_recent_keep (it : ItemRun) (st : GuardState) :
    st.recentOpeners <+: (summarizeItem it st).2.recentOpeners := by
  rw [summarizeItem_snd]
  show st.recentOpeners <+:
    (if firstTwoWords (teaserOf it st) ∈ st.recentOpeners then st.recentOpeners
     else st.recentOpeners ++ [firstTwoWords (teaserOf it st)])
  by_cases hm : firstTwoWords (teaserOf it st) ∈ st.recentOpeners
  · rw [if_pos hm]
  · rw [if_neg hm]
    exact List.prefix_append _ _

/-- A teaser whose first word is not `"what"` can only be accepted while
its first word is strictly under the cap. -/
theorem gate_lt (it : ItemRun) (st : GuardState) (w : Str)
    (hw : ¬w = ("what").toList) (hfw : firstWordJS (teaserOf it st) = w) :
    st.firstWordFreq w < FIRST_WORD_CAP := by
  have hcore := teaser_core it st
  by_cases hcap : FIRST_WORD_CAP ≤ st.firstWordFreq (firstWordJS (rewrittenB3 it st))
  · exfalso
    apply hw
    rw [← hfw, hcore.1]
    unfold gatedB3
    rw [if_pos hcap]
    decide
  · have hg : gatedB3 it st = rewrittenB3 it st := by
      unfold gatedB3
      rw [if_neg hcap]
    rw [hcore.1, hg] at hfw
    rw [← hfw]
    omega

/- ===== run-level inductions ===== -/

theorem runBatch_cons (it : ItemRun) (rest : List ItemRun) (st : GuardState) :
    runBatch (it :: rest) st =
      ((summarizeItem it st).1 :: (runBatch rest (summarizeItem it st).2).1,
        (runBatch rest (summarizeItem it st).2).2) := rfl

theorem run_noQm : ∀ (items : List ItemRun) (st : GuardState),
    ∀ r ∈ (runBatch items st).1, hasQm (r.getD 2 []) = false := by
  intro items
  induction items with
  | nil => intro st r hr; simp [runBatch] at hr
  | cons it rest ih =>
    intro st r hr
    rw [runBatch_cons] at hr
    rcases List.mem_cons.mp hr with hr | hr
    · subst hr
      rw [third_of_result]
      exact teaser_noQm it st
    · exact ih _ r hr

theorem run_recent_keep : ∀ (items : List ItemRun) (st : GuardState),
    st.recentOpeners <+: (runBatch items st).2.recentOpeners := by
  intro items
  induction items with
  | nil => intro st; simp [runBatch]
  | cons it rest ih =>
    intro st
    rw [runBatch_cons]
    exact (step_recent_keep it st).trans (ih (summarizeItem it st).2)

theorem run_opener_mem : ∀ (items : List ItemRun) (st : GuardState),
    ∀ r ∈ (runBatch items st).1,
      firstTwoWords (r.getD 2 []) ∈ (runBatch items st).2.recentOpeners := by
  intro items
  induction items with
  | nil => intro st r hr; simp [runBatch] at hr
  | cons it rest ih =>
    intro st r hr
    rw [runBatch_cons] at hr ⊢
    rcases List.mem_cons.mp hr with hr | hr
    · subst hr
      rw [third_of_result]
      have h1 := step_opener_mem it st
      have h2 := run_recent_keep rest (summarizeItem it st).2
      exact h2.subset h1
    · exact ih _ r hr

theorem run_shape3 : ∀ (items : List ItemRun) (st : GuardState),
    ∀ r ∈ (runBatch items st).1, ∃ a b c, r = [a, b, c] ∧ c ≠ [] := by
  intro items
  induction items with
  | nil => intro st r hr; simp [runBatch] at hr
  | cons it rest ih =>
    intro st r hr
    rw [runBatch_cons] at hr
    rcases List.mem_cons.mp hr with hr | hr
    · subst hr
      rw [summarizeItem_fst]
      rcases prepared_triple it.modelBullets with ⟨a, b, c, hp⟩
      rw [hp]
      exact ⟨a, b, teaserOf it st, rfl, (teaser_core it st).2⟩
    · exact ih _ r hr

theorem run_cap_count : ∀ (items : List ItemRun) (st : GuardState) (w : Str),
    ¬w = ("what").toList →
    ((runBatch items st).1.filter (fun r => thirdFW r = w)).length ≤
      FIRST_WORD_CAP - st.firstWordFreq w := by
  intro items
  induction items with
  | nil => intro st w _; simp [runBatch]
  | cons it rest ih =>
    intro st w hw
    rw [runBatch_cons]
    simp only [List.filter_cons]
    by_cases hfw : thirdFW (summarizeItem it st).1 = w
    · have hfw2 : firstWordJS (teaserOf it st) = w := by
        rw [← third_of_result it st]
        exact hfw
      have hlt := gate_lt it st w hw hfw2
      have hfreq : (summarizeItem it st).2.firstWordFreq w = st.firstWordFreq w + 1 := by
        rw [step_freq_char, if_pos hfw2.symm]
      have htail := ih (summarizeItem it st).2 w hw
      rw [hfreq] at htail
      rw [if_pos (by simp [hfw])]
      simp only [List.length_cons]
      omega
    · have hfreq : (summarizeItem it st).2.firstWordFreq w = st.firstWordFreq w := by
        rw [step_freq_char, if_neg ?_]
        intro hcon
        apply hfw
        unfold thirdFW
        rw [third_of_result]
        exact hcon.symm
      have htail := ih (summarizeItem it st).2 w hw
      rw [hfreq] at htail
      rw [if_neg (by simp [hfw])]
      exact htail

/- ===== claim theorems ===== -/

/-- C7: every accepted teaser's opener (its lowercased first two words) is
present in HistoryState's opener list at the end of the run — hence from
the moment of acceptance on — and the opener list only ever grows during a
run (the seeded list is a prefix of every later state's list; nothing is
removed). -/
theorem C7_theorem :
    (∀ (items : List ItemRun) (st : GuardState),
      ∀ r ∈ (runBatch items st).1,
        firstTwoWords (r.getD 2 []) ∈ (runBatch items st).2.recentOpeners) ∧
    (∀ (items : List ItemRun) (st : GuardState),
      st.recentOpeners <+: (runBatch items st).2.recentOpeners) :=
  ⟨run_opener_mem, run_recent_keep⟩

/-- Witness for C7 at a concrete two-article run. -/
theorem C7_witness :
    firstTwoWords ((((runBatch [itemGov, itemGov] (initState [])).1.getD 0 []).getD 2 []))
      ∈ (runBatch [itemGov, itemGov] (initState [])).2.recentOpeners :=
  C7_theorem.1 [itemGov, itemGov] (initState [])
    ((runBatch [itemGov, itemGov] (initState [])).1.getD 0 []) (by decide)

/-- C8: hook extraction is deterministic — two invocations on equal
`(text, title)` inputs return equal `HookSet`s; `extractHooks` is a pure
function of its arguments. -/
theorem C8_theorem (t1 ti1 t2 ti2 : Str) (ht : t1 = t2) (hti : ti1 = ti2) :
    extractHooks t1 ti1 = extractHooks t2 ti2 := by
  subst ht
  subst hti
  rfl

/-- Witness for C8 at a concrete input. -/
theorem C8_witness :
    extractHooks (("The hearing is set for March 5.").toList) []
      = extractHooks (("The hearing is set for March 5.").toList) [] :=
  C8_theorem _ _ _ _ rfl rfl

/-- C2 (amended): every surviving article's emitted bullet list has
exactly three entries and a non-empty third entry, but the first two
entries are whatever the collaborator produced and may be empty — the
padding at line 673 only fires when fewer than three entries exist, not
when an entry is the empty string. -/
theorem C2_amended :
    ∀ (items : List ItemRun) (st : GuardState),
      ∀ r ∈ (runBatch items st).1, ∃ a b c, r = [a, b, c] ∧ c ≠ [] :=
  run_shape3

/-- C2 counterexample: a collaborator reply of three empty strings
survives with its two empty factual bullets emitted as-is. -/
theorem C2_counterexample :
    ∃ r ∈ (runBatch [itemEmpty3] (initState [])).1, ∃ b ∈ r, b = ([] : Str) := by
  decide

/-- Witness for C2 at a concrete run. -/
theorem C2_witness :
    ∃ a b c,
      (runBatch [itemGeneral] (initState [])).1.getD 0 [] = [a, b, c] ∧ c ≠ [] :=
  C2_amended [itemGeneral] (initState [])
    ((runBatch [itemGeneral] (initState [])).1.getD 0 []) (by decide)

/-- C4 (amended): within one run started from a fresh frequency table, no
first word other than `"what"` is used by more than `FIRST_WORD_CAP`
accepted teasers.  The exception is forced by the code: the cap's own
fallback sentence begins with "What", so cap overflows pile further
teasers onto that word. -/
theorem C4_amended (items : List ItemRun) (seed : List Str) (w : Str)
    (hw : ¬w = ("what").toList) :
    ((runBatch items (initState seed)).1.filter
      (fun r => thirdFW r = w)).length ≤ FIRST_WORD_CAP := by
  have h := run_cap_count items (initState seed) w hw
  simpa [initState] using h

/-- C4 counterexample: three hookless general articles in a row produce
three accepted teasers whose first word is "what" — the cap of 2 is
exceeded because the forced fallback itself begins with "What". -/
theorem C4_counterexample :
    ((runBatch [itemGeneral, itemGeneral, itemGeneral] (initState [])).1.filter
      (fun r => thirdFW r = ("what").toList)).length = 3 ∧ FIRST_WORD_CAP < 3 := by
  constructor
  · decide
  · decide

/-- Witness for C4 at a concrete word and run. -/
theorem C4_witness :
    ((runBatch [itemGov, itemGov, itemGov] (initState [])).1.filter
      (fun r => thirdFW r = ("where").toList)).length ≤ FIRST_WORD_CAP :=
  C4_amended [itemGov, itemGov, itemGov] [] (("where").toList) (by decide)

/-- C1 (amended): every emitted teaser is free of question marks
(`applyCapsAndRecord` strips them), and a teaser accepted directly from
the collaborator — `needsRewrite` negative and its first word still under
the cap — never starts with an interrogative word.  Teasers substituted by
the move table or the cap fallback may begin with an interrogative word
(the fallback itself starts with "What"). -/
theorem C1_amended :
    (∀ (items : List ItemRun) (st : GuardState),
      ∀ r ∈ (runBatch items st).1, hasQm (r.getD 2 []) = false) ∧
    (∀ (it : ItemRun) (st : GuardState),
      needsRewrite (preparedThird it.modelBullets) st.recentOpeners = false →
      st.firstWordFreq (firstWordJS (preparedThird it.modelBullets)) < FIRST_WORD_CAP →
      firstWordJS ((summarizeItem it st).1.getD 2 []) ∉ QUESTIONY_OPENERS) := by
  refine ⟨run_noQm, ?_⟩
  intro it st hnr hcap
  obtain ⟨hne, hqm, _, _, hqw⟩ :=
    needsRewrite_false_facts (preparedThird_trimmed it.modelBullets) hnr
  have hrw : rewrittenB3 it st = preparedThird it.modelBullets := by
    unfold rewrittenB3
    rw [if_neg (by simp [hnr])]
  have hg : gatedB3 it st = preparedThird it.modelBullets := by
    unfold gatedB3
    rw [hrw, if_neg (by omega)]
  rw [third_of_result]
  unfold teaserOf
  rw [hg, stripQm_of_noQm hqm, preparedThird_trimmed]
  exact hqw

/-- C1 counterexample: a hookless general article with an empty
collaborator bullet 3 is rewritten to the neutral template, whose first
word "what" is in the interrogative set. -/
theorem C1_counterexample :
    (((runBatch [itemGeneral] (initState [])).1.getD 0 []).getD 2 []) = generalNext ∧
    firstWordJS generalNext ∈ QUESTIONY_OPENERS := by
  constructor
  · decide
  · decide

/-- Witness for C1 at a concrete accepted-as-is article. -/
theorem C1_witness :
    hasQm (((runBatch [itemOk] (initState [])).1.getD 0 []).getD 2 []) = false ∧
    firstWordJS ((summarizeItem itemOk (initState [])).1.getD 2 []) ∉ QUESTIONY_OPENERS :=
  ⟨C1_amended.1 [itemOk] (initState [])
      ((runBatch [itemOk] (initState [])).1.getD 0 []) (by decide),
    C1_amended.2 itemOk (initState []) (by decide) (by decide)⟩

/-- C3 (amended): a teaser accepted directly from the collaborator
(`needsRewrite` negative, first word under the cap) has an opener that is
not in HistoryState at the moment of acceptance.  Teasers substituted by
the one-shot template rewrite or the cap fallback are not re-checked and
may repeat an opener already in history. -/
theorem C3_amended (it : ItemRun) (st : GuardState)
    (hnr : needsRewrite (preparedThird it.modelBullets) st.recentOpeners = false)
    (hcap : st.firstWordFreq (firstWordJS (preparedThird it.modelBullets)) < FIRST_WORD_CAP) :
    firstTwoWords ((summarizeItem it st).1.getD 2 []) ∉ st.recentOpeners := by
  obtain ⟨hne, hqm, _, hop, _⟩ :=
    needsRewrite_false_facts (preparedThird_trimmed it.modelBullets) hnr
  have hrw : rewrittenB3 it st = preparedThird it.modelBullets := by
    unfold rewrittenB3
    rw [if_neg (by simp [hnr])]
  have hg : gatedB3 it st = preparedThird it.modelBullets := by
    unfold gatedB3
    rw [hrw, if_neg (by omega)]
  rw [third_of_result]
  unfold teaserOf
  rw [hg, stripQm_of_noQm hqm, preparedThird_trimmed]
  exact hop

/-- C3 counterexample: two identical hookless gov articles.  The second
article's rewritten teaser is accepted with the opener "where the" even
though that opener entered HistoryState when the first article was
accepted, and the teaser is the primary gov template, not the neutral
fallback. -/
theorem C3_counterexample :
    firstTwoWords (((runBatch [itemGov, itemGov] (initState [])).1.getD 1 []).getD 2 [])
        ∈ (runBatch [itemGov] (initState [])).2.recentOpeners ∧
    (((runBatch [itemGov, itemGov] (initState [])).1.getD 1 []).getD 2 []) ≠ generalNext := by
  constructor
  · decide
  · decide

/-- Witness for C3 at a concrete accepted-as-is article. -/
theorem C3_witness :
    firstTwoWords ((summarizeItem itemOk (initState [])).1.getD 2 [])
      ∉ (initState []).recentOpeners :=
  C3_amended itemOk (initState []) (by decide) (by decide)

/-- C6 (amended): a teaser accepted directly from the collaborator
(`needsRewrite` negative) contains no banned phrase, case-insensitively —
and this persists through the cap fallback; but the rewrite path can emit
the entertainment "role" template, which contains the banned phrase
"see how". -/
theorem C6_amended (it : ItemRun) (st : GuardState)
    (hnr : needsRewrite (preparedThird it.modelBullets) st.recentOpeners = false) :
    ∀ p ∈ claimBanned, subS p (lowS ((summarizeItem it st).1.getD 2 [])) = false := by
  obtain ⟨hne, hqm, hban, _, _⟩ :=
    needsRewrite_false_facts (preparedThird_trimmed it.modelBullets) hnr
  have hsub : ∀ p ∈ claimBanned, p ∈ BANNED_PHRASES := by decide
  have hrw : rewrittenB3 it st = preparedThird it.modelBullets := by
    unfold rewrittenB3
    rw [if_neg (by simp [hnr])]
  rw [third_of_result]
  unfold teaserOf gatedB3
  rw [hrw]
  by_cases hcap : FIRST_WORD_CAP ≤
      st.firstWordFreq (firstWordJS (preparedThird it.modelBullets))
  · rw [if_pos hcap]
    decide
  · rw [if_neg hcap, stripQm_of_noQm hqm, preparedThird_trimmed]
    intro p hp
    exact hban p (hsub p hp)

/-- C6 counterexample: an Arts-section article with no date or quote
hooks gets the entertainment "role" template, which contains the banned
phrase "see how". -/
theorem C6_counterexample :
    (((runBatch [itemEnt] (initState [])).1.getD 0 []).getD 2 [])
        = ("See how the role is framed—and what it signals.").toList ∧
    subS (("see how").toList)
      (lowS (((runBatch [itemEnt] (initState [])).1.getD 0 []).getD 2 [])) = true := by
  constructor
  · decide
  · decide

/-- Witness for C6 at a concrete accepted-as-is article. -/
theorem C6_witness :
    subS (("discover").toList)
      (lowS ((summarizeItem itemOk (initState [])).1.getD 2 [])) = false :=
  C6_amended itemOk (initState []) (by decide) (("discover").toList) (by decide)

/-- C5 (amended): date hooks are rendered verbatim into visible teaser
text.  For a gov-domain article with a date hook, `pickMoveForDomain`
selects the next-step move and its template interpolates `hooks.dates[0]`
into the sentence (`${h.when}` at line 545), so the extracted date string
occurs verbatim in the composed teaser. -/
theorem C5_amended (hooks : Hooks) (d : Str) (rest : List Str)
    (hd : hooks.dates = d :: rest) (hne : d ≠ []) :
    pickMoveForDomain govD hooks = ("next").toList ∧
    subS d (MOVES govD (("next").toList)
      ⟨hooks.actors.head?, hooks.numbers.head?, hooks.dates.head?⟩) = true := by
  have htr2 : optTruthy (some d) = true := by
    rcases List.exists_cons_of_ne_nil hne with ⟨x, xs, rfl⟩
    simp [optTruthy]
  have htr : optTruthy hooks.dates.head? = true := by
    rw [hd]
    exact htr2
  constructor
  · unfold pickMoveForDomain
    rw [if_neg (by decide), if_neg (by decide), if_pos rfl, if_pos htr]
  · have harg : (⟨hooks.actors.head?, hooks.numbers.head?,
        hooks.dates.head?⟩ : HookArgs).when = some d := by
      show hooks.dates.head? = some d
      rw [hd]
      rfl
    have hv : MOVES govD (("next").toList)
        ⟨hooks.actors.head?, hooks.numbers.head?, hooks.dates.head?⟩ =
        (("Next step is scheduled").toList ++ (" (").toList) ++
          (d ++ ((")").toList ++ ("—agenda details inside.").toList)) := by
      unfold MOVES
      rw [if_neg (by decide), if_neg (by decide), if_pos rfl, if_pos rfl, harg,
        if_pos htr2]
      simp [List.append_assoc]
    rw [hv]
    exact subS_append_self _ d _

/-- C5 counterexample: a gov article whose body contains "March 5" has
that extracted date hook rendered verbatim in its emitted teaser. -/
theorem C5_counterexample :
    (extractHooks itemDate.text itemDate.title).dates = [("March 5").toList] ∧
    subS (("March 5").toList)
      (((runBatch [itemDate] (initState [])).1.getD 0 []).getD 2 []) = true := by
  constructor
  · decide
  · decide

/-- Witness for C5 at the extracted hooks of a concrete article. -/
theorem C5_witness :
    pickMoveForDomain govD (extractHooks itemDate.text itemDate.title) = ("next").toList ∧
    subS (("March 5").toList)
      (MOVES govD (("next").toList)
        ⟨(extractHooks itemDate.text itemDate.title).actors.head?,
          (extractHooks itemDate.text itemDate.title).numbers.head?,
          (extractHooks itemDate.text itemDate.title).dates.head?⟩) = true :=
  C5_amended (extractHooks itemDate.text itemDate.title) (("March 5").toList) []
    (by decide) (by decide)

/-- C9 (amended): domain classification always returns exactly one of the
six categories, evaluating its rules in the fixed priority order sports,
entertainment, gov, courts, realestate with first match winning and
general as the default — but the sports, entertainment and realestate
rules test the concatenation of section label and body text while the gov
and courts rules test the body text alone. -/
theorem C9_amended (t s : Str) :
    (detectDomain t s = sportsD ∨ detectDomain t s = entD ∨
      detectDomain t s = govD ∨ detectDomain t s = courtsD ∨
      detectDomain t s = reD ∨ detectDomain t s = genD) ∧
    (testAlts sportsAlts (lowS s ++ lowS t) = true → detectDomain t s = sportsD) ∧
    (testAlts sportsAlts (lowS s ++ lowS t) = false →
      testAlts entAlts (lowS s ++ lowS t) = true → detectDomain t s = entD) ∧
    (testAlts sportsAlts (lowS s ++ lowS t) = false →
      testAlts entAlts (lowS s ++ lowS t) = false →
      testAlts govAlts (lowS t) = true → detectDomain t s = govD) ∧
    (testAlts sportsAlts (lowS s ++ lowS t) = false →
      testAlts entAlts (lowS s ++ lowS t) = false →
      testAlts govAlts (lowS t) = false →
      testAlts courtsAlts (lowS t) = true → detectDomain t s = courtsD) ∧
    (testAlts sportsAlts (lowS s ++ lowS t) = false →
      testAlts entAlts (lowS s ++ lowS t) = false →
      testAlts govAlts (lowS t) = false →
      testAlts courtsAlts (lowS t) = false →
      testAlts reAlts (lowS s ++ lowS t) = true → detectDomain t s = reD) ∧
    (testAlts sportsAlts (lowS s ++ lowS t) = false →
      testAlts entAlts (lowS s ++ lowS t) = false →
      testAlts govAlts (lowS t) = false →
      testAlts courtsAlts (lowS t) = false →
      testAlts reAlts (lowS s ++ lowS t) = false → detectDomain t s = genD) := by
  refine ⟨?_, ?_, ?_, ?_, ?_, ?_, ?_⟩
  · simp only [detectDomain]
    split_ifs <;> simp
  · intro h1
    simp only [detectDomain]
    rw [if_pos h1]
  · intro h1 h2
    simp only [detectDomain]
    rw [if_neg (by simp [h1]), if_pos h2]
  · intro h1 h2 h3
    simp only [detectDomain]
    rw [if_neg (by simp [h1]), if_neg (by simp [h2]), if_pos h3]
  · intro h1 h2 h3 h4
    simp only [detectDomain]
    rw [if_neg (by simp [h1]), if_neg (by simp [h2]), if_neg (by simp [h3]),
      if_pos h4]
  · intro h1 h2 h3 h4 h5
    simp only [detectDomain]
    rw [if_neg (by simp [h1]), if_neg (by simp [h2]), if_neg (by simp [h3]),
      if_neg (by simp [h4]), if_pos h5]
  · intro h1 h2 h3 h4 h5
    simp only [detectDomain]
    rw [if_neg (by simp [h1]), if_neg (by simp [h2]), if_neg (by simp [h3]),
      if_neg (by simp [h4]), if_neg (by simp [h5])]

/-- C9 counterexample: with section label "City Council" and an empty
body, the rule set described by the spec (every rule over the
concatenation) classifies gov, but `detectDomain` returns general because
its gov rule ignores the section label. -/
theorem C9_counterexample :
    detectDomain [] (("City Council").toList) ≠
        classifySpec [] (("City Council").toList) ∧
    detectDomain [] (("City Council").toList) = genD ∧
    classifySpec [] (("City Council").toList) = govD := by
  refine ⟨?_, ?_, ?_⟩
  · decide
  · decide
  · decide

/-- Witness for C9 at a concrete no-rule-matches input. -/
theorem C9_witness : detectDomain [] [] = genD :=
  (C9_amended [] []).2.2.2.2.2.2 (by decide) (by decide) (by decide) (by decide)
    (by decide)

theorem edCheck_sound (x : Str) (h : edCheck x = true) : EndsDot x := by
  unfold edCheck at h
  split at h
  · rename_i a r hr
    refine ⟨r.reverse, a, ?_, ?_⟩
    · have h1 : x.reverse.reverse = x := List.reverse_reverse x
      rw [hr] at h1
      rw [← h1]
      simp
    · intro hEq
      rw [hEq] at h
      simp at h
  · simp at h

theorem endsDot_app (p : Str) {x : Str} (h : EndsDot x) : EndsDot (p ++ x) := by
  obtain ⟨pre, a, heq, ha⟩ := h
  exact ⟨p ++ pre, a, by rw [heq, List.append_assoc], ha⟩

theorem endsDot_ite (c : Prop) [Decidable c] {x1 x2 : Str} (h1 : EndsDot x1)
    (h2 : EndsDot x2) : EndsDot (if c then x1 else x2) := by
  by_cases hc : c
  · rw [if_pos hc]
    exact h1
  · rw [if_neg hc]
    exact h2

theorem optED_none : OptED none := fun _ h => Option.noConfusion h

theorem optED_some {x : Str} (h : EndsDot x) : OptED (some x) := by
  intro y hy
  injection hy with h2
  rw [← h2]
  exact h

theorem optED_ite (c : Prop) [Decidable c] {o1 o2 : Option Str}
    (h1 : OptED o1) (h2 : OptED o2) : OptED (if c then o1 else o2) := by
  by_cases hc : c
  · rw [if_pos hc]
    exact h1
  · rw [if_neg hc]
    exact h2

theorem findTruthy_ED (l : List (Option Str)) (hl : ∀ o ∈ l, OptED o) :
    EndsDot ((findTruthy l).getD generalNext) := by
  induction l with
  | nil => exact edCheck_sound generalNext (by decide)
  | cons o rest ih =>
    have ho := hl o (List.mem_cons_self o rest)
    have hrest : ∀ p ∈ rest, OptED p := fun p hp => hl p (List.mem_cons_of_mem o hp)
    cases o with
    | none => exact ih hrest
    | some s =>
      have he : findTruthy (some s :: rest) =
          if s.isEmpty = true then findTruthy rest else some s := rfl
      by_cases hs : s.isEmpty = true
      · rw [he, if_pos hs]
        exact ih hrest
      · rw [he, if_neg hs]
        exact ho s rfl

theorem stripDots3_noop {x : Str} (h : EndsDot x) : stripDots3 x = x := by
  obtain ⟨pre, a, heq, ha⟩ := h
  subst heq
  unfold stripDots3
  split
  · rename_i r hr
    exfalso
    have h2 : (pre ++ [a, '.']).reverse = '.' :: a :: pre.reverse := by simp
    rw [h2] at hr
    injection hr with _ h3
    injection h3 with h4 _
    exact ha h4
  · rfl

theorem teaserList_sound (hooks : Hooks) (domain title : Str)
    (l : List (Option Str)) (hl : teaserList hooks domain title = some l) :
    ∀ o ∈ l, OptED o := by
  intro o ho
  simp only [teaserList] at hl
  by_cases h1 : domain = sportsD
  · rw [if_pos h1] at hl
    injection hl with hl2
    subst hl2
    simp only [List.mem_cons, List.not_mem_nil, or_false] at ho
    rcases ho with rfl | rfl | rfl
    · exact optED_ite _ optED_none
        (optED_some (endsDot_app _ (edCheck_sound ((" said.").toList) (by decide))))
    · exact optED_ite _
        (optED_some (endsDot_app _ (edCheck_sound (((").").toList)) (by decide))))
        optED_none
    · exact optED_some (edCheck_sound _ (by decide))
  · rw [if_neg h1] at hl
    by_cases h2 : domain = entD
    · rw [if_pos h2] at hl
      injection hl with hl2
      subst hl2
      simp only [List.mem_cons, List.not_mem_nil, or_false] at ho
      rcases ho with rfl | rfl | rfl
      · exact optED_some (edCheck_sound _ (by decide))
      · exact optED_some (edCheck_sound _ (by decide))
      · exact optED_some (edCheck_sound _ (by decide))
    · rw [if_neg h2] at hl
      by_cases h3 : domain = govD
      · rw [if_pos h3] at hl
        injection hl with hl2
        subst hl2
        simp only [List.mem_cons, List.not_mem_nil, or_false] at ho
        rcases ho with rfl | rfl | rfl
        · exact optED_some (edCheck_sound _ (by decide))
        · exact optED_some (edCheck_sound _ (by decide))
        · exact optED_some (edCheck_sound _ (by decide))
      · rw [if_neg h3] at hl
        by_cases h4 : domain = courtsD
        · rw [if_pos h4] at hl
          injection hl with hl2
          subst hl2
          simp only [List.mem_cons, List.not_mem_nil, or_false] at ho
          rcases ho with rfl | rfl | rfl
          · exact optED_some (edCheck_sound _ (by decide))
          · exact optED_some (edCheck_sound _ (by decide))
          · exact optED_some (edCheck_sound _ (by decide))
        · rw [if_neg h4] at hl
          by_cases h5 : domain = reD
          · rw [if_pos h5] at hl
            injection hl with hl2
            subst hl2
            simp only [List.mem_cons, List.not_mem_nil, or_false] at ho
            rcases ho with rfl | rfl | rfl
            · exact optED_some (endsDot_ite _
                (endsDot_app _ (edCheck_sound (((").").toList)) (by decide)))
                (edCheck_sound (("See the ranking and what moved it.").toList)
                  (by decide)))
            · exact optED_some (edCheck_sound _ (by decide))
            · exact optED_some (edCheck_sound _ (by decide))
          · rw [if_neg h5] at hl
            by_cases h6 : domain ∈ protoKeys
            · rw [if_pos h6] at hl
              exact Option.noConfusion hl
            · rw [if_neg h6] at hl
              injection hl with hl2
              subst hl2
              simp only [List.mem_cons, List.not_mem_nil, or_false] at ho
              rcases ho with rfl | rfl | rfl
              · exact optED_ite _ optED_none
                  (optED_some (endsDot_app _
                    (edCheck_sound ((" said.").toList) (by decide))))
              · exact optED_some (endsDot_ite _
                  (endsDot_app _ (edCheck_sound (((").").toList)) (by decide)))
                  (edCheck_sound
                    (("One figure reframes the story—see the number.").toList)
                    (by decide)))
              · exact optED_some (edCheck_sound _ (by decide))

theorem teaserList_cases (hooks : Hooks) (domain title : Str)
    (hp : ¬domain ∈ protoKeys) :
    ∃ l, teaserList hooks domain title = some l := by
  simp only [teaserList]
  by_cases h1 : domain = sportsD
  · rw [if_pos h1]
    exact ⟨_, rfl⟩
  · rw [if_neg h1]
    by_cases h2 : domain = entD
    · rw [if_pos h2]
      exact ⟨_, rfl⟩
    · rw [if_neg h2]
      by_cases h3 : domain = govD
      · rw [if_pos h3]
        exact ⟨_, rfl⟩
      · rw [if_neg h3]
        by_cases h4 : domain = courtsD
        · rw [if_pos h4]
          exact ⟨_, rfl⟩
        · rw [if_neg h4]
          by_cases h5 : domain = reD
          · rw [if_pos h5]
            exact ⟨_, rfl⟩
          · rw [if_neg h5, if_neg hp]
            exact ⟨_, rfl⟩

theorem buildTeaser_some (hooks : Hooks) (domain title : Str)
    (l : List (Option Str)) (hl : teaserList hooks domain title = some l) :
    buildTeaser hooks domain title =
      some (if bannedRegexV1 (trimS (stripDots3
            ((findTruthy l).getD generalNext))) = true
        then generalNext
        else trimS (stripDots3 ((findTruthy l).getD generalNext))) := by
  unfold buildTeaser
  rw [hl]

/-- C10 (amended): `buildTeaser` returns a non-empty sentence for every
hooks object, title and domain string whose lookup in the template object
does not hit an inherited `Object.prototype` member; a domain outside the
six enumerated categories (and outside those prototype keys) falls back to
the general template set.  A domain naming an `Object.prototype` member
(`constructor`, `toString`, ...) makes `T[domain]` a truthy non-array, so
`list.find` is undefined and the call throws instead of returning. -/
theorem C10_amended (hooks : Hooks) (domain title : Str) :
    (¬domain ∈ protoKeys →
      ∃ y, buildTeaser hooks domain title = some y ∧ y ≠ []) ∧
    (¬domain ∈ protoKeys → domain ≠ sportsD → domain ≠ entD → domain ≠ govD →
      domain ≠ courtsD → domain ≠ reD →
      buildTeaser hooks domain title = buildTeaser hooks genD title) ∧
    (domain ∈ protoKeys → buildTeaser hooks domain title = none) := by
  refine ⟨?_, ?_, ?_⟩
  · intro hp
    obtain ⟨l, hl⟩ := teaserList_cases hooks domain title hp
    have hED := findTruthy_ED l (teaserList_sound hooks domain title l hl)
    rw [buildTeaser_some hooks domain title l hl]
    refine ⟨_, rfl, ?_⟩
    by_cases hb : bannedRegexV1 (trimS (stripDots3
        ((findTruthy l).getD generalNext))) = true
    · rw [if_pos hb]
      decide
    · rw [if_neg hb]
      rw [stripDots3_noop hED]
      obtain ⟨pre, a, heq, ha⟩ := hED
      rw [heq]
      exact trimS_nonempty (show ('.') ∈ pre ++ [a, '.'] by simp) (by decide)
  · intro hp h1 h2 h3 h4 h5
    have hlist : teaserList hooks domain title = teaserList hooks genD title := by
      simp only [teaserList]
      rw [if_neg h1, if_neg h2, if_neg h3, if_neg h4, if_neg h5, if_neg hp,
        if_neg (show ¬(genD = sportsD) by decide),
        if_neg (show ¬(genD = entD) by decide),
        if_neg (show ¬(genD = govD) by decide),
        if_neg (show ¬(genD = courtsD) by decide),
        if_neg (show ¬(genD = reD) by decide),
        if_neg (show ¬(genD ∈ protoKeys) by decide)]
    unfold buildTeaser
    rw [hlist]
  · intro hp
    simp only [protoKeys, List.mem_cons, List.not_mem_nil, or_false] at hp
    rcases hp with rfl | rfl | rfl | rfl | rfl | rfl | rfl | rfl | rfl | rfl |
      rfl | rfl <;> rfl

/-- C10 counterexample: the domain string "constructor" is outside the six
enumerated categories, yet `buildTeaser` does not fall back to the general
template set there — the lookup hits `Object.prototype.constructor` and
the call throws. -/
theorem C10_counterexample :
    buildTeaser ⟨[], [], [], [], [], []⟩ (("constructor").toList) [] = none ∧
    ¬(("constructor").toList = sportsD ∨ ("constructor").toList = entD ∨
      ("constructor").toList = govD ∨ ("constructor").toList = courtsD ∨
      ("constructor").toList = reD ∨ ("constructor").toList = genD) := by
  constructor
  · rfl
  · decide

/-- Witness for C10 at empty hooks, a non-prototype domain string outside
the six categories, and a prototype-key domain. -/
theorem C10_witness :
    (∃ y, buildTeaser ⟨[], [], [], [], [], []⟩ (("weird").toList) [] = some y ∧
      y ≠ []) ∧
    buildTeaser ⟨[], [], [], [], [], []⟩ (("weird").toList) [] =
      buildTeaser ⟨[], [], [], [], [], []⟩ genD [] ∧
    buildTeaser ⟨[], [], [], [], [], []⟩ (("toString").toList) [] = none :=
  ⟨(C10_amended ⟨[], [], [], [], [], []⟩ (("weird").toList) []).1 (by decide),
    (C10_amended ⟨[], [], [], [], [], []⟩ (("weird").toList) []).2.1 (by decide)
      (by decide) (by decide) (by decide) (by decide) (by decide),
    (C10_amended ⟨[], [], [], [], [], []⟩ (("toString").toList) []).2.2
      (by decide)⟩
